import Mathlib

/-!
# sno6/mnist: the IDX decoder and its accessors

A shallow embedding of `mnist.go`.

* A Go `uint8` is a `Byte` (`Fin 256`); a Go slice is a `List` (its capacity is
  taken equal to its length, as for every slice made by `make`).
* A Go `int32` / `int` is an `Int`; the arithmetic the source performs on them
  wraps explicitly (`wrapInt32`, `wrapInt`, a 64 bit `int`).
* A Go `error` is a `GoError`; `errors.Wrap` is the constructor `GoError.wrap`.
* A Go function that can panic returns `Except Panic _`; a function returning
  `(value, error)` returns `Except GoError _` inside it.
* The file system is a function from a location to the content of the file
  there (`none` when `os.Open` fails).
-/

namespace Mnist

/-! ## Machine integers and bytes -/

/-- A Go `uint8`. -/
abbrev Byte := Fin 256

/-- Two-complement wraparound of Go `int32` arithmetic. -/
def wrapInt32 (z : Int) : Int := (z + 2 ^ 31) % 2 ^ 32 - 2 ^ 31

/-- Two-complement wraparound of Go `int` arithmetic (64 bit targets). -/
def wrapInt (z : Int) : Int := (z + 2 ^ 63) % 2 ^ 64 - 2 ^ 63

/-- The largest slice length, `math.MaxInt` on a 64 bit target. -/
def maxInt : Int := 2 ^ 63 - 1

/-! ## Errors and panics -/

/-- Go `error` values the package can return. -/
inductive GoError where
  /-- the `*PathError` of `os.Open` -/
  | openFailed (loc : String)
  /-- `io.EOF` -/
  | eof
  /-- `io.ErrUnexpectedEOF` -/
  | unexpectedEOF
  /-- `errMagicMismatch` -/
  | magicMismatch
  /-- `errors.Wrap(cause, msg)` -/
  | wrap (err : GoError) (msg : String)
  deriving DecidableEq, Repr

/-- `var errMagicMismatch = errors.New("mnist: magic mismatch")`. -/
def errMagicMismatch : GoError := GoError.magicMismatch

/-- `errors.Cause`: the innermost error of a chain of wraps. -/
def GoError.cause : GoError → GoError
  | GoError.wrap e _ => e.cause
  | e => e

/-- Run-time panics. -/
inductive Panic where
  /-- an explicit `panic(msg)` of the source -/
  | explicit (msg : String)
  /-- runtime error: index out of range [idx] with length len -/
  | indexOutOfRange (idx : Int) (len : Nat)
  /-- runtime error: slice bounds out of range -/
  | sliceBoundsOutOfRange (low high : Int) (cap : Nat)
  /-- runtime error: makeslice: len out of range -/
  | makesliceLenOutOfRange (len : Int)
  deriving DecidableEq, Repr

/-- Equality of results is decidable. -/
instance instDecidableEqExcept {ε α : Type} [DecidableEq ε] [DecidableEq α] :
    DecidableEq (Except ε α)
  | Except.ok a, Except.ok b =>
    if h : a = b then isTrue (by rw [h]) else isFalse (fun h2 => h (Except.ok.inj h2))
  | Except.error a, Except.error b =>
    if h : a = b then isTrue (by rw [h]) else isFalse (fun h2 => h (Except.error.inj h2))
  | Except.ok _, Except.error _ => isFalse (fun h => Except.noConfusion h)
  | Except.error _, Except.ok _ => isFalse (fun h => Except.noConfusion h)

/-! ## Slices -/

/-- The index expression `s[i]` used as a value. -/
def index {α : Type} (s : List α) (i : Int) : Except Panic α :=
  if i < 0 then Except.error (Panic.indexOutOfRange i s.length)
  else
    match s[i.toNat]? with
    | some v => Except.ok v
    | none => Except.error (Panic.indexOutOfRange i s.length)

/-- The assignment `s[i] = v`. -/
def assignIndex {α : Type} (s : List α) (i : Int) (v : α) : Except Panic (List α) :=
  if i < 0 then Except.error (Panic.indexOutOfRange i s.length)
  else if i.toNat < s.length then Except.ok (s.set i.toNat v)
  else Except.error (Panic.indexOutOfRange i s.length)

/-- The slice expression `s[low:high]`. -/
def sliceExpr {α : Type} (s : List α) (low high : Int) : Except Panic (List α) :=
  if 0 ≤ low ∧ low ≤ high ∧ high ≤ (s.length : Int) then
    Except.ok ((s.drop low.toNat).take (high.toNat - low.toNat))
  else Except.error (Panic.sliceBoundsOutOfRange low high s.length)

/-- The call `make([]T, n)`, zero filled. -/
def makeSlice {α : Type} (zero : α) (n : Int) : Except Panic (List α) :=
  if n < 0 then Except.error (Panic.makesliceLenOutOfRange n)
  else Except.ok (List.replicate n.toNat zero)

/-! ## Byte streams and `encoding/binary` -/

/-- `io.ReadFull` on a file whose unread bytes are `s`: the `n` bytes read, or
`io.EOF` when nothing was left, `io.ErrUnexpectedEOF` when too little was; and
the bytes left unread. A read of no bytes succeeds. -/
def readFull (s : List Byte) (n : Nat) : Except GoError (List Byte) × List Byte :=
  if n ≤ s.length then (Except.ok (s.take n), s.drop n)
  else if s.length = 0 then (Except.error GoError.eof, [])
  else (Except.error GoError.unexpectedEOF, [])

/-- `binary.BigEndian.Uint32` of the four bytes at offset `off`. -/
def beUint32 (bs : List Byte) (off : Nat) : Nat :=
  (bs.getD off 0).val * 2 ^ 24 + (bs.getD (off + 1) 0).val * 2 ^ 16
    + (bs.getD (off + 2) 0).val * 2 ^ 8 + (bs.getD (off + 3) 0).val

/-- The conversion `int32(u)` of a `uint32`. -/
def int32OfUint32 (u : Nat) : Int := if u < 2 ^ 31 then (u : Int) else (u : Int) - 2 ^ 32

/-- A big-endian `int32` field at offset `off`. -/
def beInt32 (bs : List Byte) (off : Nat) : Int := int32OfUint32 (beUint32 bs off)

/-- `binary.Read(r, binary.BigEndian, &v)` for `v` an `int32`. -/
def binaryReadInt32 (s : List Byte) : Except GoError Int × List Byte :=
  match readFull s 4 with
  | (Except.ok bs, rest) => (Except.ok (beInt32 bs 0), rest)
  | (Except.error e, rest) => (Except.error e, rest)

/-! ## The data model of the source -/

def ImageMagic : Int := 2051

def LabelMagic : Int := 2049

structure Files where
  TrainingImagesLoc : String
  TrainingLabelsLoc : String
  TestingImagesLoc : String
  TestingLabelsLoc : String
  deriving DecidableEq, Repr

structure ImageSet where
  Count : Int
  Rows : Int
  Cols : Int
  Images : List Byte
  deriving DecidableEq, Repr

structure LabelSet where
  Count : Int
  Labels : List Byte
  deriving DecidableEq, Repr

/-- The pointers of the Go struct are options: `nil` is `none`. -/
structure Reader where
  TrainingImages : Option ImageSet
  TestingImages : Option ImageSet
  TrainingLabels : Option LabelSet
  TestingLabels : Option LabelSet
  deriving DecidableEq, Repr

structure binLabelCfg where
  Count : Int
  deriving DecidableEq, Repr

structure binImageCfg where
  Count : Int
  Rows : Int
  Cols : Int
  deriving DecidableEq, Repr

/-- The file system: the content of the file at a location, `none` when
`os.Open` fails there. -/
abbrev FileSystem := String → Option (List Byte)

/-- `binary.Read(fr, binary.BigEndian, &bc)` for `bc` a `binLabelCfg`. -/
def binaryReadLabelCfg (s : List Byte) : Except GoError binLabelCfg × List Byte :=
  match readFull s 4 with
  | (Except.ok bs, rest) => (Except.ok { Count := beInt32 bs 0 }, rest)
  | (Except.error e, rest) => (Except.error e, rest)

/-- `binary.Read(fr, binary.BigEndian, &bc)` for `bc` a `binImageCfg`. -/
def binaryReadImageCfg (s : List Byte) : Except GoError binImageCfg × List Byte :=
  match readFull s 12 with
  | (Except.ok bs, rest) =>
    (Except.ok { Count := beInt32 bs 0, Rows := beInt32 bs 4, Cols := beInt32 bs 8 }, rest)
  | (Except.error e, rest) => (Except.error e, rest)

/-- `binary.Read(fr, binary.BigEndian, d)` for `d` a `[]uint8`: fills all of `d`. -/
def binaryReadBytes (s : List Byte) (d : List Byte) : Except GoError (List Byte) × List Byte :=
  readFull s d.length

/-! ## The decoder -/

/-- The error of `checkMagic` (`none` is `nil`) and the stream after it. -/
def checkMagic (r : List Byte) (truth : Int) : Option GoError × List Byte :=
  match binaryReadInt32 r with
  | (Except.error err, rest) => (some err, rest)
  | (Except.ok magic, rest) =>
    if magic ≠ truth then (some errMagicMismatch, rest) else (none, rest)

/-- The reader returned is the stream of the unread bytes of the file. -/
def newReaderFromFile (fs : FileSystem) (loc : String) (magic : Int) :
    Except GoError (List Byte) :=
  match fs loc with
  | none => Except.error (GoError.wrap (GoError.openFailed loc) "newReaderFromFile: error opening file")
  | some r =>
    match checkMagic r magic with
    | (some err, _) => Except.error err
    | (none, r1) => Except.ok r1

def readLabelSet (fs : FileSystem) (loc : String) : Except Panic (Except GoError LabelSet) :=
  match newReaderFromFile fs loc LabelMagic with
  | Except.error err =>
    Except.ok (Except.error (GoError.wrap err "readLabelSet: error reading label file"))
  | Except.ok fr =>
    match binaryReadLabelCfg fr with
    | (Except.error err, _) =>
      Except.ok (Except.error (GoError.wrap err "readLabelset: error reading label config"))
    | (Except.ok bc, fr1) =>
      match makeSlice (0 : Byte) bc.Count with
      | Except.error p => Except.error p
      | Except.ok d0 =>
        match binaryReadBytes fr1 d0 with
        | (Except.error err, _) =>
          Except.ok (Except.error (GoError.wrap err "readLabelset: error reading label data"))
        | (Except.ok d, _) => Except.ok (Except.ok { Count := bc.Count, Labels := d })

def readImageSet (fs : FileSystem) (loc : String) : Except Panic (Except GoError ImageSet) :=
  match newReaderFromFile fs loc ImageMagic with
  | Except.error err =>
    Except.ok (Except.error (GoError.wrap err "readImageSet: error reading image file"))
  | Except.ok fr =>
    match binaryReadImageCfg fr with
    | (Except.error err, _) =>
      Except.ok (Except.error (GoError.wrap err "readImageSet: error reading image config"))
    | (Except.ok bc, fr1) =>
      match makeSlice (0 : Byte) (wrapInt32 (wrapInt32 (bc.Count * bc.Rows) * bc.Cols)) with
      | Except.error p => Except.error p
      | Except.ok d0 =>
        match binaryReadBytes fr1 d0 with
        | (Except.error err, _) =>
          Except.ok (Except.error (GoError.wrap err "readImageSet: error reading image data"))
        | (Except.ok d, _) =>
          Except.ok (Except.ok { Count := bc.Count, Rows := bc.Rows, Cols := bc.Cols, Images := d })

/-! ## The orchestrator -/

/-- The statement `r.TrainingImages, err = r.readImageSet(loc)`. -/
def Reader.assignTrainingImages (fs : FileSystem) (r : Reader) (loc : String) :
    Except Panic (Reader × Option GoError) :=
  match readImageSet fs loc with
  | Except.error p => Except.error p
  | Except.ok (Except.error err) => Except.ok ({ r with TrainingImages := none }, some err)
  | Except.ok (Except.ok s) => Except.ok ({ r with TrainingImages := some s }, none)

/-- The statement `r.TrainingLabels, err = r.readLabelSet(loc)`. -/
def Reader.assignTrainingLabels (fs : FileSystem) (r : Reader) (loc : String) :
    Except Panic (Reader × Option GoError) :=
  match readLabelSet fs loc with
  | Except.error p => Except.error p
  | Except.ok (Except.error err) => Except.ok ({ r with TrainingLabels := none }, some err)
  | Except.ok (Except.ok s) => Except.ok ({ r with TrainingLabels := some s }, none)

/-- The statement `r.TestingImages, err = r.readImageSet(loc)`. -/
def Reader.assignTestingImages (fs : FileSystem) (r : Reader) (loc : String) :
    Except Panic (Reader × Option GoError) :=
  match readImageSet fs loc with
  | Except.error p => Except.error p
  | Except.ok (Except.error err) => Except.ok ({ r with TestingImages := none }, some err)
  | Except.ok (Except.ok s) => Except.ok ({ r with TestingImages := some s }, none)

/-- The statement `r.TestingLabels, err = r.readLabelSet(loc)`. -/
def Reader.assignTestingLabels (fs : FileSystem) (r : Reader) (loc : String) :
    Except Panic (Reader × Option GoError) :=
  match readLabelSet fs loc with
  | Except.error p => Except.error p
  | Except.ok (Except.error err) => Except.ok ({ r with TestingLabels := none }, some err)
  | Except.ok (Except.ok s) => Except.ok ({ r with TestingLabels := some s }, none)

/-- The receiver after the call, with the error returned (`none` is `nil`). -/
def Reader.process (fs : FileSystem) (r : Reader) (locs : Files) :
    Except Panic (Reader × Option GoError) :=
  match (if locs.TrainingImagesLoc ≠ "" then r.assignTrainingImages fs locs.TrainingImagesLoc
      else Except.ok (r, none)) with
  | Except.error p => Except.error p
  | Except.ok (r1, some err) => Except.ok (r1, some err)
  | Except.ok (r1, none) =>
    match (if locs.TrainingLabelsLoc ≠ "" then r1.assignTrainingLabels fs locs.TrainingLabelsLoc
        else Except.ok (r1, none)) with
    | Except.error p => Except.error p
    | Except.ok (r2, some err) => Except.ok (r2, some err)
    | Except.ok (r2, none) =>
      match (if locs.TestingImagesLoc ≠ "" then r2.assignTestingImages fs locs.TestingImagesLoc
          else Except.ok (r2, none)) with
      | Except.error p => Except.error p
      | Except.ok (r3, some err) => Except.ok (r3, some err)
      | Except.ok (r3, none) =>
        match (if locs.TestingLabelsLoc ≠ "" then r3.assignTestingLabels fs locs.TestingLabelsLoc
            else Except.ok (r3, none)) with
        | Except.error p => Except.error p
        | Except.ok (r4, some err) => Except.ok (r4, some err)
        | Except.ok (r4, none) => Except.ok (r4, none)

/-- The pair `(r, err)` returned. -/
def New (fs : FileSystem) (locs : Files) : Except Panic (Reader × Option GoError) :=
  Reader.process fs
    { TrainingImages := none, TestingImages := none, TrainingLabels := none,
      TestingLabels := none } locs

/-! ## The accessors -/

def LabelSet.GetLabel (l : LabelSet) (offset : Int) : Except Panic Byte :=
  if offset > l.Count then Except.error (Panic.explicit "GetLabel: offset value greater than count")
  else index l.Labels offset

/-- A bounded loop `for k := 0; k < n; k++ { s = body(s, k) }`. -/
def forRange {σ : Type} (n : Nat) (body : σ → Nat → Except Panic σ) (init : σ) :
    Except Panic σ :=
  (List.range n).foldlM body init

/-- The loop `for i := range m { m[i] = make([]uint8, cols) }`. -/
def fillRows (cols : Int) : List (List Byte) → Except Panic (List (List Byte))
  | [] => Except.ok []
  | _ :: rest =>
    match makeSlice (0 : Byte) cols with
    | Except.error p => Except.error p
    | Except.ok row =>
      match fillRows cols rest with
      | Except.error p => Except.error p
      | Except.ok rows => Except.ok (row :: rows)

/-- The loop body `valOffset := (y * r) + x; m[x][y] = img.Images[imgStart+valOffset]`:
the operand `m[x]`, then the right hand side, then the assignment. -/
def ImageSet.assignPixel (img : ImageSet) (imgStart r : Int) (y : Nat) (m : List (List Byte))
    (x : Nat) : Except Panic (List (List Byte)) :=
  let valOffset := wrapInt (wrapInt ((y : Int) * r) + (x : Int))
  match index m (x : Int) with
  | Except.error p => Except.error p
  | Except.ok row =>
    match index img.Images (wrapInt (imgStart + valOffset)) with
    | Except.error p => Except.error p
    | Except.ok v =>
      match assignIndex row (y : Int) v with
      | Except.error p => Except.error p
      | Except.ok row1 => Except.ok (m.set x row1)

def ImageSet.GetImage (img : ImageSet) (offset : Int) : Except Panic (List (List Byte)) :=
  if offset > img.Count then Except.error (Panic.explicit "GetImage: offset value greater than count")
  else
    match makeSlice ([] : List Byte) img.Rows with
    | Except.error p => Except.error p
    | Except.ok m0 =>
      match fillRows img.Cols m0 with
      | Except.error p => Except.error p
      | Except.ok m =>
        match index m 0 with
        | Except.error p => Except.error p
        | Except.ok row0 =>
          let r : Int := (m.length : Int)
          let c : Int := (row0.length : Int)
          let imgStart := wrapInt (wrapInt (offset * r) * c)
          forRange m.length
            (fun m1 y => forRange row0.length (img.assignPixel imgStart r y) m1) m

def ImageSet.GetFlatImage (img : ImageSet) (offset : Int) : Except Panic (List Byte) :=
  if offset > img.Count then
    Except.error (Panic.explicit "GetFlatImage: offset value greater than count")
  else
    let sz := wrapInt (img.Rows * img.Cols)
    sliceExpr img.Images (wrapInt (offset * sz)) (wrapInt (wrapInt (offset * sz) + sz))

/-! ## Grids -/

/-- The element `m[x][y]` of a grid, `none` when an index is out of range. -/
def gridAt (m : List (List Byte)) (x y : Nat) : Option Byte :=
  match m[x]? with
  | some row => row[y]?
  | none => none

/-- A grid of shape `r` by `c`: an outer sequence of length `r` whose every inner sequence
has length `c`. -/
def isGrid (r c : Nat) (m : List (List Byte)) : Prop :=
  m.length = r ∧ ∀ row ∈ m, row.length = c

/-! ## The file format, as the specification describes it -/

/-- The four bytes of a big-endian `int32`. -/
def be32 (z : Int) : List Byte :=
  let u := (z % 2 ^ 32).toNat
  [Fin.ofNat (u / 2 ^ 24 % 256), Fin.ofNat (u / 2 ^ 16 % 256), Fin.ofNat (u / 2 ^ 8 % 256),
    Fin.ofNat (u % 256)]

/-- A label file: magic 2049, the count, the labels. -/
def labelFile (n : Int) (labels : List Byte) : List Byte :=
  be32 2049 ++ be32 n ++ labels

/-- An image file: magic 2051, count, rows, cols, the pixels. -/
def imageFile (n r c : Int) (pixels : List Byte) : List Byte :=
  be32 2051 ++ be32 n ++ be32 r ++ be32 c ++ pixels

/-! ## Open file handles

The same decoder with the open file handles of the process as explicit state. `os.Open`
adds a handle. The source calls `Close` nowhere; what can close a file it opened is the
finalizer that `os.Open` sets on the file, which the garbage collector runs at some moment
after the file is no longer referenced, or never. -/

/-- The open file handles, one entry (the location) for each open file of the process. -/
abbrev Handles := List String

/-- `os.Open(loc)`: the content of the file and one more open handle, or an error. -/
def osOpen (fs : FileSystem) (loc : String) (h : Handles) :
    Except GoError (List Byte) × Handles :=
  match fs loc with
  | none => (Except.error (GoError.openFailed loc), h)
  | some r => (Except.ok r, loc :: h)

/-- The file opened at `loc` is no longer referenced. There is no `Close`: the handle goes
only if the garbage collector runs the finalizer of the file, and `ran` tells whether it does
so before `New` returns. -/
def dropFile (ran : Bool) (loc : String) (h : Handles) : Handles :=
  if ran then h.erase loc else h

/-- `newReaderFromFile` with the handles: the file is returned on success and dropped when
the magic is refused. -/
def newReaderFromFileH (fs : FileSystem) (loc : String) (magic : Int) (ran : Bool)
    (h : Handles) : Except GoError (List Byte) × Handles :=
  match osOpen fs loc h with
  | (Except.error err, h1) =>
    (Except.error (GoError.wrap err "newReaderFromFile: error opening file"), h1)
  | (Except.ok r, h1) =>
    match checkMagic r magic with
    | (some err, _) => (Except.error err, dropFile ran loc h1)
    | (none, r1) => (Except.ok r1, h1)

/-- `readLabelSet` with the handles: the file is dropped at every exit after it was
opened. -/
def readLabelSetH (fs : FileSystem) (loc : String) (ran : Bool) (h : Handles) :
    Except Panic (Except GoError LabelSet) × Handles :=
  match newReaderFromFileH fs loc LabelMagic ran h with
  | (Except.error err, h1) =>
    (Except.ok (Except.error (GoError.wrap err "readLabelSet: error reading label file")), h1)
  | (Except.ok fr, h1) =>
    match binaryReadLabelCfg fr with
    | (Except.error err, _) =>
      (Except.ok (Except.error (GoError.wrap err "readLabelset: error reading label config")),
        dropFile ran loc h1)
    | (Except.ok bc, fr1) =>
      match makeSlice (0 : Byte) bc.Count with
      | Except.error p => (Except.error p, dropFile ran loc h1)
      | Except.ok d0 =>
        match binaryReadBytes fr1 d0 with
        | (Except.error err, _) =>
          (Except.ok (Except.error (GoError.wrap err "readLabelset: error reading label data")),
            dropFile ran loc h1)
        | (Except.ok d, _) =>
          (Except.ok (Except.ok { Count := bc.Count, Labels := d }), dropFile ran loc h1)

/-- `readImageSet` with the handles: the file is dropped at every exit after it was
opened. -/
def readImageSetH (fs : FileSystem) (loc : String) (ran : Bool) (h : Handles) :
    Except Panic (Except GoError ImageSet) × Handles :=
  match newReaderFromFileH fs loc ImageMagic ran h with
  | (Except.error err, h1) =>
    (Except.ok (Except.error (GoError.wrap err "readImageSet: error reading image file")), h1)
  | (Except.ok fr, h1) =>
    match binaryReadImageCfg fr with
    | (Except.error err, _) =>
      (Except.ok (Except.error (GoError.wrap err "readImageSet: error reading image config")),
        dropFile ran loc h1)
    | (Except.ok bc, fr1) =>
      match makeSlice (0 : Byte) (wrapInt32 (wrapInt32 (bc.Count * bc.Rows) * bc.Cols)) with
      | Except.error p => (Except.error p, dropFile ran loc h1)
      | Except.ok d0 =>
        match binaryReadBytes fr1 d0 with
        | (Except.error err, _) =>
          (Except.ok (Except.error (GoError.wrap err "readImageSet: error reading image data")),
            dropFile ran loc h1)
        | (Except.ok d, _) =>
          (Except.ok (Except.ok
            { Count := bc.Count, Rows := bc.Rows, Cols := bc.Cols, Images := d }),
            dropFile ran loc h1)

/-- One guarded step of `process` that reads images: the reader with the field given by
`set` assigned, the error, and the handles. -/
def stepImagesH (fs : FileSystem) (loc : String) (ran : Bool)
    (set : Reader → Option ImageSet → Reader) (r : Reader) (h : Handles) :
    Except Panic (Reader × Option GoError) × Handles :=
  if loc ≠ "" then
    match readImageSetH fs loc ran h with
    | (Except.error p, h1) => (Except.error p, h1)
    | (Except.ok (Except.error err), h1) => (Except.ok (set r none, some err), h1)
    | (Except.ok (Except.ok s), h1) => (Except.ok (set r (some s), none), h1)
  else (Except.ok (r, none), h)

/-- One guarded step of `process` that reads labels. -/
def stepLabelsH (fs : FileSystem) (loc : String) (ran : Bool)
    (set : Reader → Option LabelSet → Reader) (r : Reader) (h : Handles) :
    Except Panic (Reader × Option GoError) × Handles :=
  if loc ≠ "" then
    match readLabelSetH fs loc ran h with
    | (Except.error p, h1) => (Except.error p, h1)
    | (Except.ok (Except.error err), h1) => (Except.ok (set r none, some err), h1)
    | (Except.ok (Except.ok s), h1) => (Except.ok (set r (some s), none), h1)
  else (Except.ok (r, none), h)

/-- The sequencing of the steps of `process`: a step that panics or returns an error ends
the call, otherwise the rest runs. -/
def thenH (step rest : Reader → Handles → Except Panic (Reader × Option GoError) × Handles)
    (r : Reader) (h : Handles) : Except Panic (Reader × Option GoError) × Handles :=
  match step r h with
  | (Except.error p, h1) => (Except.error p, h1)
  | (Except.ok (r1, some err), h1) => (Except.ok (r1, some err), h1)
  | (Except.ok (r1, none), h1) => rest r1 h1

/-- `process` with the handles; `gc k` tells whether the finalizer of the file opened by
step `k` (0 the training images, 1 the training labels, 2 the testing images, 3 the testing
labels) runs before `New` returns. -/
def Reader.processH (fs : FileSystem) (r : Reader) (locs : Files) (gc : Nat → Bool)
    (h : Handles) : Except Panic (Reader × Option GoError) × Handles :=
  thenH (stepImagesH fs locs.TrainingImagesLoc (gc 0)
      (fun r o => { r with TrainingImages := o }))
    (thenH (stepLabelsH fs locs.TrainingLabelsLoc (gc 1)
        (fun r o => { r with TrainingLabels := o }))
      (thenH (stepImagesH fs locs.TestingImagesLoc (gc 2)
          (fun r o => { r with TestingImages := o }))
        (thenH (stepLabelsH fs locs.TestingLabelsLoc (gc 3)
            (fun r o => { r with TestingLabels := o }))
          (fun r4 h4 => (Except.ok (r4, none), h4))))) r h

/-- `New` with the handles: the result of `New` and the handles open when it returns. -/
def NewH (fs : FileSystem) (locs : Files) (gc : Nat → Bool) (h : Handles) :
    Except Panic (Reader × Option GoError) × Handles :=
  Reader.processH fs
    { TrainingImages := none, TestingImages := none, TrainingLabels := none,
      TestingLabels := none } locs gc h

/-- Whether a decode returned a set: no panic and no error. -/
def decodes {α : Type} : Except Panic (Except GoError α) → Bool
  | Except.ok (Except.ok _) => true
  | _ => false

/-- What a decode of the file at `loc` adds to the open handles: the handle of the file, if
the file exists and its finalizer has not run. -/
def stillOpen (fs : FileSystem) (ran : Bool) (loc : String) : List String :=
  if (fs loc).isSome = true ∧ ran = false then [loc] else []

/-- What a step of `process` adds to the open handles: nothing for a location that is not
supplied. -/
def stepOpen (fs : FileSystem) (ran : Bool) (loc : String) : List String :=
  if loc ≠ "" then stillOpen fs ran loc else []

/-! ## The grayscale image

`image.Gray` of the standard library: the bounds, the stride and the pixel buffer. -/

/-- An `*image.Gray` with `Rect = Rectangle{Min: Point{MinX, MinY}, Max: Point{MaxX, MaxY}}`. -/
structure Gray where
  Pix : List Byte
  Stride : Int
  MinX : Int
  MinY : Int
  MaxX : Int
  MaxY : Int
  deriving DecidableEq, Repr

/-- `image.NewGray(image.Rectangle{Min: image.Point{0, 0}, Max: image.Point{maxX, maxY}})`:
a zero buffer of `maxX * maxY` pixels, a panic for negative or huge dimensions. -/
def NewGray (maxX maxY : Int) : Except Panic Gray :=
  if maxX < 0 ∨ maxY < 0 ∨ maxInt < maxX * maxY then
    Except.error (Panic.explicit "image: NewGray Rectangle has huge or negative dimensions")
  else
    Except.ok { Pix := List.replicate (maxX * maxY).toNat 0, Stride := maxX, MinX := 0,
                MinY := 0, MaxX := maxX, MaxY := maxY }

/-- `Point{x, y}.In(p.Rect)`. -/
def Gray.contains (p : Gray) (x y : Int) : Prop :=
  p.MinX ≤ x ∧ x < p.MaxX ∧ p.MinY ≤ y ∧ y < p.MaxY

instance Gray.instDecidableContains (p : Gray) (x y : Int) : Decidable (p.contains x y) := by
  unfold Gray.contains
  exact inferInstance

/-- `p.PixOffset(x, y)`. -/
def Gray.PixOffset (p : Gray) (x y : Int) : Int :=
  wrapInt (wrapInt ((y - p.MinY) * p.Stride) + (x - p.MinX))

/-- `p.Set(x, y, color.Gray{Y: v})`: nothing outside the bounds. -/
def Gray.Set (p : Gray) (x y : Int) (v : Byte) : Except Panic Gray :=
  if p.contains x y then
    match assignIndex p.Pix (p.PixOffset x y) v with
    | Except.error e => Except.error e
    | Except.ok pix => Except.ok { p with Pix := pix }
  else Except.ok p

/-- `p.GrayAt(x, y).Y`: zero outside the bounds. -/
def Gray.GrayAt (p : Gray) (x y : Int) : Except Panic Byte :=
  if p.contains x y then index p.Pix (p.PixOffset x y) else Except.ok 0

/-- The loop body `img.Set(x, y, color.Gray{Y: m[x][y]})`. -/
def setGrayPixel (m : List (List Byte)) (y : Nat) (img : Gray) (x : Nat) : Except Panic Gray :=
  match index m (x : Int) with
  | Except.error p => Except.error p
  | Except.ok row =>
    match index row (y : Int) with
    | Except.error p => Except.error p
    | Except.ok v => img.Set (x : Int) (y : Int) v

/-- The image returned, `none` for `nil`. -/
def ToGrayScale (m : List (List Byte)) : Except Panic (Option Gray) :=
  if m.length = 0 then Except.ok none
  else
    match index m 0 with
    | Except.error p => Except.error p
    | Except.ok row0 =>
      match NewGray (m.length : Int) (row0.length : Int) with
      | Except.error p => Except.error p
      | Except.ok img =>
        match forRange m.length
            (fun img1 y => forRange row0.length (setGrayPixel m y) img1) img with
        | Except.error p => Except.error p
        | Except.ok img2 => Except.ok (some img2)

/-! ## Arithmetic of the encoding -/

theorem be32_length (z : Int) : (be32 z).length = 4 := rfl

theorem int32OfUint32_bytes (z : Int) (hz : -2 ^ 31 ≤ z ∧ z < 2 ^ 31) (b0 b1 b2 b3 : Byte)
    (h : be32 z = [b0, b1, b2, b3]) :
    int32OfUint32 (b0.val * 2 ^ 24 + b1.val * 2 ^ 16 + b2.val * 2 ^ 8 + b3.val) = z := by
  simp only [be32, List.cons.injEq, and_true] at h
  obtain ⟨h0, h1, h2, h3⟩ := h
  subst h0 h1 h2 h3
  simp only [int32OfUint32, Fin.ofNat, Fin.val_mk]
  split <;> omega

/-- Every `be32 z` is a list of four bytes. -/
theorem be32_eq_four (z : Int) : ∃ b0 b1 b2 b3 : Byte, be32 z = [b0, b1, b2, b3] :=
  ⟨_, _, _, _, rfl⟩

/-- Decoding the first field of a stream that starts with `be32 z` gives `z`. -/
theorem beInt32_be32_append (z : Int) (hz : -2 ^ 31 ≤ z ∧ z < 2 ^ 31) (rest : List Byte) :
    beInt32 (be32 z ++ rest) 0 = z := by
  obtain ⟨b0, b1, b2, b3, h⟩ := be32_eq_four z
  have := int32OfUint32_bytes z hz b0 b1 b2 b3 h
  rw [h]
  simpa [beInt32, beUint32] using this

/-- A field at offset `off + 4` behind a four byte field is the field at `off` behind it. -/
theorem beInt32_skip (z : Int) (rest : List Byte) (off : Nat) :
    beInt32 (be32 z ++ rest) (off + 4) = beInt32 rest off := by
  obtain ⟨b0, b1, b2, b3, h⟩ := be32_eq_four z
  rw [h]
  simp [beInt32, beUint32, List.getD_cons_succ, Nat.add_right_comm]

theorem wrapInt32_id (z : Int) (hz : -2 ^ 31 ≤ z ∧ z < 2 ^ 31) : wrapInt32 z = z := by
  unfold wrapInt32; omega

theorem wrapInt32_mul (a b : Int) : wrapInt32 (wrapInt32 a * b) = wrapInt32 (a * b) := by
  unfold wrapInt32
  have key : (((a + 2 ^ 31) % 2 ^ 32 - 2 ^ 31) * b + 2 ^ 31) % 2 ^ 32
      = (a * b + 2 ^ 31) % 2 ^ 32 := by
    have e : ((a + 2 ^ 31) % 2 ^ 32 - 2 ^ 31) * b + 2 ^ 31
        = (a * b + 2 ^ 31) + 2 ^ 32 * (-((a + 2 ^ 31) / 2 ^ 32) * b) := by
      have : (a + 2 ^ 31) % 2 ^ 32 = a + 2 ^ 31 - 2 ^ 32 * ((a + 2 ^ 31) / 2 ^ 32) := by omega
      rw [this]; ring
    rw [e, Int.add_mul_emod_self_left]
  rw [key]

/-! ## Reading from a stream -/

theorem readFull_append (a rest : List Byte) (n : Nat) (h : a.length = n) :
    readFull (a ++ rest) n = (Except.ok a, rest) := by
  subst h
  simp [readFull]

theorem checkMagic_be32 (m truth : Int) (hm : -2 ^ 31 ≤ m ∧ m < 2 ^ 31) (rest : List Byte) :
    checkMagic (be32 m ++ rest) truth
      = (if m ≠ truth then some errMagicMismatch else none, rest) := by
  have h4 : readFull (be32 m ++ rest) 4 = (Except.ok (be32 m), rest) :=
    readFull_append _ _ _ (be32_length m)
  have hd : beInt32 (be32 m) 0 = m := by
    simpa using beInt32_be32_append m hm []
  simp only [checkMagic, binaryReadInt32, h4, hd]
  split <;> simp_all

theorem binaryReadLabelCfg_be32 (n : Int) (hn : -2 ^ 31 ≤ n ∧ n < 2 ^ 31) (rest : List Byte) :
    binaryReadLabelCfg (be32 n ++ rest) = (Except.ok { Count := n }, rest) := by
  have h4 : readFull (be32 n ++ rest) 4 = (Except.ok (be32 n), rest) :=
    readFull_append _ _ _ (be32_length n)
  have hd : beInt32 (be32 n) 0 = n := by
    simpa using beInt32_be32_append n hn []
  simp only [binaryReadLabelCfg, h4, hd]

theorem binaryReadImageCfg_be32 (n r c : Int) (hn : -2 ^ 31 ≤ n ∧ n < 2 ^ 31)
    (hr : -2 ^ 31 ≤ r ∧ r < 2 ^ 31) (hc : -2 ^ 31 ≤ c ∧ c < 2 ^ 31) (rest : List Byte) :
    binaryReadImageCfg (be32 n ++ be32 r ++ be32 c ++ rest)
      = (Except.ok { Count := n, Rows := r, Cols := c }, rest) := by
  have h12 : readFull (be32 n ++ be32 r ++ be32 c ++ rest) 12
      = (Except.ok (be32 n ++ be32 r ++ be32 c), rest) :=
    readFull_append _ _ _ (by simp [be32_length])
  have h0 : beInt32 (be32 n ++ be32 r ++ be32 c) 0 = n := by
    rw [List.append_assoc]; exact beInt32_be32_append n hn _
  have h1 : beInt32 (be32 n ++ be32 r ++ be32 c) 4 = r := by
    rw [List.append_assoc, show (4 : Nat) = 0 + 4 from rfl, beInt32_skip]
    exact beInt32_be32_append r hr _
  have h2 : beInt32 (be32 n ++ be32 r ++ be32 c) 8 = c := by
    rw [List.append_assoc, show (8 : Nat) = (0 + 4) + 4 from rfl, beInt32_skip, beInt32_skip]
    simpa using beInt32_be32_append c hc []
  simp only [binaryReadImageCfg, h12, h0, h1, h2]

theorem makeSlice_nonneg {α : Type} (zero : α) (n : Int) (h : 0 ≤ n) :
    makeSlice zero n = Except.ok (List.replicate n.toNat zero) := by
  simp [makeSlice, not_lt.mpr h]

theorem binaryReadBytes_exact (d0 L rest : List Byte) (h : d0.length = L.length) :
    binaryReadBytes (L ++ rest) d0 = (Except.ok L, rest) := by
  unfold binaryReadBytes
  exact readFull_append _ _ _ h.symm

/-! ## Reading a stream given by its bytes -/

theorem readFull_of_le (s : List Byte) (n : Nat) (h : n ≤ s.length) :
    readFull s n = (Except.ok (s.take n), s.drop n) := by
  simp [readFull, h]

theorem readFull_of_lt (s : List Byte) (n : Nat) (h : s.length < n) :
    readFull s n
      = (Except.error (if s.length = 0 then GoError.eof else GoError.unexpectedEOF), []) := by
  unfold readFull
  rw [if_neg (by omega)]
  split <;> rfl

/-- A field inside the window `s[k : k + n]` is the field of `s` at the shifted offset. -/
theorem beInt32_window (s : List Byte) (k n off : Nat) (h : off + 4 ≤ n) :
    beInt32 ((s.drop k).take n) off = beInt32 s (k + off) := by
  have g : ∀ j, j < 4 → ((s.drop k).take n).getD (off + j) 0 = s.getD (k + off + j) 0 := by
    intro j hj
    simp only [List.getD_eq_getElem?_getD, List.getElem?_take, List.getElem?_drop]
    rw [if_pos (by omega), Nat.add_assoc]
  have g0 := g 0 (by omega)
  have g1 := g 1 (by omega)
  have g2 := g 2 (by omega)
  have g3 := g 3 (by omega)
  simp only [Nat.add_zero] at g0
  simp only [beInt32, beUint32, g0, g1, g2, g3]

theorem beInt32_take (s : List Byte) (n off : Nat) (h : off + 4 ≤ n) :
    beInt32 (s.take n) off = beInt32 s off := by
  simpa using beInt32_window s 0 n off h

theorem checkMagic_of_le (s : List Byte) (truth : Int) (h : 4 ≤ s.length) :
    checkMagic s truth
      = (if beInt32 s 0 ≠ truth then some errMagicMismatch else none, s.drop 4) := by
  simp only [checkMagic, binaryReadInt32, readFull_of_le s 4 h, beInt32_take s 4 0 (le_refl _)]
  split <;> simp_all

theorem checkMagic_of_lt (s : List Byte) (truth : Int) (h : s.length < 4) :
    checkMagic s truth
      = (some (if s.length = 0 then GoError.eof else GoError.unexpectedEOF), []) := by
  simp only [checkMagic, binaryReadInt32, readFull_of_lt s 4 h]

theorem binaryReadLabelCfg_of_le (s : List Byte) (k : Nat) (h : k + 4 ≤ s.length) :
    binaryReadLabelCfg (s.drop k)
      = (Except.ok { Count := beInt32 s (k + 0) }, s.drop (k + 4)) := by
  have hl : 4 ≤ (s.drop k).length := by simp; omega
  simp only [binaryReadLabelCfg, readFull_of_le _ 4 hl, beInt32_window s k 4 0 (le_refl _),
    List.drop_drop, Nat.add_comm 4 k]

theorem binaryReadImageCfg_of_le (s : List Byte) (k : Nat) (h : k + 12 ≤ s.length) :
    binaryReadImageCfg (s.drop k)
      = (Except.ok
          { Count := beInt32 s (k + 0), Rows := beInt32 s (k + 4), Cols := beInt32 s (k + 8) },
        s.drop (k + 12)) := by
  have hl : 12 ≤ (s.drop k).length := by simp; omega
  simp only [binaryReadImageCfg, readFull_of_le _ 12 hl, beInt32_window s k 12 0 (by omega),
    beInt32_window s k 12 4 (by omega), beInt32_window s k 12 8 (by omega),
    List.drop_drop, Nat.add_comm 12 k]

theorem binaryReadLabelCfg_of_lt (s : List Byte) (h : s.length < 4) :
    binaryReadLabelCfg s
      = (Except.error (if s.length = 0 then GoError.eof else GoError.unexpectedEOF), []) := by
  simp only [binaryReadLabelCfg, readFull_of_lt s 4 h]

theorem binaryReadImageCfg_of_lt (s : List Byte) (h : s.length < 12) :
    binaryReadImageCfg s
      = (Except.error (if s.length = 0 then GoError.eof else GoError.unexpectedEOF), []) := by
  simp only [binaryReadImageCfg, readFull_of_lt s 12 h]

theorem newReaderFromFile_of_checkMagic_ok (fs : FileSystem) (loc : String)
    (bs r1 : List Byte) (magic : Int) (hfile : fs loc = some bs)
    (hc : checkMagic bs magic = (none, r1)) :
    newReaderFromFile fs loc magic = Except.ok r1 := by
  unfold newReaderFromFile
  simp only [hfile, hc]

theorem newReaderFromFile_of_checkMagic_error (fs : FileSystem) (loc : String)
    (bs r1 : List Byte) (magic : Int) (err : GoError) (hfile : fs loc = some bs)
    (hc : checkMagic bs magic = (some err, r1)) :
    newReaderFromFile fs loc magic = Except.error err := by
  unfold newReaderFromFile
  simp only [hfile, hc]

/-- A file of at least four bytes with a wrong magic is refused by `newReaderFromFile`. -/
theorem newReaderFromFile_mismatch (fs : FileSystem) (loc : String) (bs : List Byte)
    (magic : Int) (hfile : fs loc = some bs) (hlen : 4 ≤ bs.length)
    (hne : beInt32 bs 0 ≠ magic) :
    newReaderFromFile fs loc magic = Except.error errMagicMismatch := by
  simp only [newReaderFromFile, hfile, checkMagic_of_le bs magic hlen, if_pos hne]

/-- A file with the right magic is opened and positioned behind it. -/
theorem newReaderFromFile_match (fs : FileSystem) (loc : String) (bs : List Byte)
    (magic : Int) (hfile : fs loc = some bs) (hlen : 4 ≤ bs.length)
    (heq : beInt32 bs 0 = magic) :
    newReaderFromFile fs loc magic = Except.ok (bs.drop 4) := by
  simp only [newReaderFromFile, hfile, checkMagic_of_le bs magic hlen, heq, ne_eq,
    not_true_eq_false, if_false]

/-! ## The stages of the two decoders -/

theorem readLabelSet_of_open_error (fs : FileSystem) (loc : String) (err : GoError)
    (h1 : newReaderFromFile fs loc LabelMagic = Except.error err) :
    readLabelSet fs loc
      = Except.ok (Except.error (GoError.wrap err "readLabelSet: error reading label file")) := by
  unfold readLabelSet
  rw [h1]

theorem readLabelSet_of_cfg_error (fs : FileSystem) (loc : String) (fr rest : List Byte)
    (err : GoError) (h1 : newReaderFromFile fs loc LabelMagic = Except.ok fr)
    (h2 : binaryReadLabelCfg fr = (Except.error err, rest)) :
    readLabelSet fs loc
      = Except.ok (Except.error (GoError.wrap err "readLabelset: error reading label config")) := by
  unfold readLabelSet
  rw [h1]
  simp only [h2]

theorem readLabelSet_of_negative (fs : FileSystem) (loc : String) (fr fr1 : List Byte)
    (bc : binLabelCfg) (h1 : newReaderFromFile fs loc LabelMagic = Except.ok fr)
    (h2 : binaryReadLabelCfg fr = (Except.ok bc, fr1)) (h3 : bc.Count < 0) :
    readLabelSet fs loc = Except.error (Panic.makesliceLenOutOfRange bc.Count) := by
  unfold readLabelSet
  rw [h1]
  simp only [h2, makeSlice, if_pos h3]

theorem readLabelSet_of_data_error (fs : FileSystem) (loc : String) (fr fr1 rest : List Byte)
    (bc : binLabelCfg) (err : GoError)
    (h1 : newReaderFromFile fs loc LabelMagic = Except.ok fr)
    (h2 : binaryReadLabelCfg fr = (Except.ok bc, fr1)) (h3 : 0 ≤ bc.Count)
    (h4 : readFull fr1 bc.Count.toNat = (Except.error err, rest)) :
    readLabelSet fs loc
      = Except.ok (Except.error (GoError.wrap err "readLabelset: error reading label data")) := by
  unfold readLabelSet
  rw [h1]
  simp only [h2, makeSlice_nonneg _ _ h3, binaryReadBytes, List.length_replicate, h4]

theorem readLabelSet_of_data (fs : FileSystem) (loc : String) (fr fr1 rest d : List Byte)
    (bc : binLabelCfg) (h1 : newReaderFromFile fs loc LabelMagic = Except.ok fr)
    (h2 : binaryReadLabelCfg fr = (Except.ok bc, fr1)) (h3 : 0 ≤ bc.Count)
    (h4 : readFull fr1 bc.Count.toNat = (Except.ok d, rest)) :
    readLabelSet fs loc = Except.ok (Except.ok { Count := bc.Count, Labels := d }) := by
  unfold readLabelSet
  rw [h1]
  simp only [h2, makeSlice_nonneg _ _ h3, binaryReadBytes, List.length_replicate, h4]

theorem readImageSet_of_open_error (fs : FileSystem) (loc : String) (err : GoError)
    (h1 : newReaderFromFile fs loc ImageMagic = Except.error err) :
    readImageSet fs loc
      = Except.ok (Except.error (GoError.wrap err "readImageSet: error reading image file")) := by
  unfold readImageSet
  rw [h1]

theorem readImageSet_of_cfg_error (fs : FileSystem) (loc : String) (fr rest : List Byte)
    (err : GoError) (h1 : newReaderFromFile fs loc ImageMagic = Except.ok fr)
    (h2 : binaryReadImageCfg fr = (Except.error err, rest)) :
    readImageSet fs loc
      = Except.ok (Except.error (GoError.wrap err "readImageSet: error reading image config")) := by
  unfold readImageSet
  rw [h1]
  simp only [h2]

theorem readImageSet_of_negative (fs : FileSystem) (loc : String) (fr fr1 : List Byte)
    (bc : binImageCfg) (h1 : newReaderFromFile fs loc ImageMagic = Except.ok fr)
    (h2 : binaryReadImageCfg fr = (Except.ok bc, fr1))
    (h3 : wrapInt32 (wrapInt32 (bc.Count * bc.Rows) * bc.Cols) < 0) :
    readImageSet fs loc = Except.error
      (Panic.makesliceLenOutOfRange (wrapInt32 (wrapInt32 (bc.Count * bc.Rows) * bc.Cols))) := by
  unfold readImageSet
  rw [h1]
  simp only [h2, makeSlice, if_pos h3]

theorem readImageSet_of_data_error (fs : FileSystem) (loc : String) (fr fr1 rest : List Byte)
    (bc : binImageCfg) (err : GoError)
    (h1 : newReaderFromFile fs loc ImageMagic = Except.ok fr)
    (h2 : binaryReadImageCfg fr = (Except.ok bc, fr1))
    (h3 : 0 ≤ wrapInt32 (wrapInt32 (bc.Count * bc.Rows) * bc.Cols))
    (h4 : readFull fr1 (wrapInt32 (wrapInt32 (bc.Count * bc.Rows) * bc.Cols)).toNat
      = (Except.error err, rest)) :
    readImageSet fs loc
      = Except.ok (Except.error (GoError.wrap err "readImageSet: error reading image data")) := by
  unfold readImageSet
  rw [h1]
  simp only [h2, makeSlice_nonneg _ _ h3, binaryReadBytes, List.length_replicate, h4]

theorem readImageSet_of_data (fs : FileSystem) (loc : String) (fr fr1 rest d : List Byte)
    (bc : binImageCfg) (h1 : newReaderFromFile fs loc ImageMagic = Except.ok fr)
    (h2 : binaryReadImageCfg fr = (Except.ok bc, fr1))
    (h3 : 0 ≤ wrapInt32 (wrapInt32 (bc.Count * bc.Rows) * bc.Cols))
    (h4 : readFull fr1 (wrapInt32 (wrapInt32 (bc.Count * bc.Rows) * bc.Cols)).toNat
      = (Except.ok d, rest)) :
    readImageSet fs loc = Except.ok
      (Except.ok { Count := bc.Count, Rows := bc.Rows, Cols := bc.Cols, Images := d }) := by
  unfold readImageSet
  rw [h1]
  simp only [h2, makeSlice_nonneg _ _ h3, binaryReadBytes, List.length_replicate, h4]

/-! ## Well-formed files decode to their content -/

/-- C1: a label file made of the big-endian int32 2049, the big-endian int32 `N` (with
`0 ≤ N < 2^31`) and exactly `N` label bytes `L` decodes without error to the label set with
`Count = N` and `Labels = L`, byte for byte and in order. -/
theorem C1_readLabelSet_wellFormed (fs : FileSystem) (loc : String) (N : Int) (L : List Byte)
    (hN : 0 ≤ N ∧ N < 2 ^ 31) (hL : (L.length : Int) = N)
    (hfile : fs loc = some (labelFile N L)) :
    readLabelSet fs loc = Except.ok (Except.ok { Count := N, Labels := L }) := by
  have hm := checkMagic_be32 2049 LabelMagic (by decide) (be32 N ++ L)
  rw [if_neg (by decide)] at hm
  have h1 : newReaderFromFile fs loc LabelMagic = Except.ok (be32 N ++ L) :=
    newReaderFromFile_of_checkMagic_ok fs loc _ _ _
      (by rw [hfile, labelFile, List.append_assoc]) hm
  have h2 := binaryReadLabelCfg_be32 N ⟨by omega, hN.2⟩ L
  have h4 : readFull L N.toNat = (Except.ok L, []) := by
    have := readFull_append L [] N.toNat (by omega)
    rwa [List.append_nil] at this
  exact readLabelSet_of_data fs loc _ _ _ _ { Count := N } h1 h2 hN.1 h4

theorem C1_readLabelSet_wellFormed_witness :
    readLabelSet (fun _ => some (labelFile 3 [5, 0, 7])) "train-labels"
      = Except.ok (Except.ok { Count := 3, Labels := [5, 0, 7] }) :=
  C1_readLabelSet_wellFormed (fun _ => some (labelFile 3 [5, 0, 7])) "train-labels" 3 [5, 0, 7]
    (by decide) (by decide) rfl

/-- C2: an image file made of the big-endian int32 values 2051, `N`, `R`, `C` (non-negative,
with `N * R * C ≤ 2^31 - 1`) and exactly `N * R * C` pixel bytes `P` decodes without error to
the image set with `Count = N`, `Rows = R`, `Cols = C` and `Images = P`, byte for byte. -/
theorem C2_readImageSet_wellFormed (fs : FileSystem) (loc : String) (N R C : Int)
    (P : List Byte) (hN : 0 ≤ N ∧ N < 2 ^ 31) (hR : 0 ≤ R ∧ R < 2 ^ 31)
    (hC : 0 ≤ C ∧ C < 2 ^ 31) (hprod : N * R * C ≤ 2 ^ 31 - 1)
    (hP : (P.length : Int) = N * R * C) (hfile : fs loc = some (imageFile N R C P)) :
    readImageSet fs loc
      = Except.ok (Except.ok { Count := N, Rows := R, Cols := C, Images := P }) := by
  have hm := checkMagic_be32 2051 ImageMagic (by decide) (be32 N ++ be32 R ++ be32 C ++ P)
  rw [if_neg (by decide)] at hm
  have h1 : newReaderFromFile fs loc ImageMagic
      = Except.ok (be32 N ++ be32 R ++ be32 C ++ P) :=
    newReaderFromFile_of_checkMagic_ok fs loc _ _ _
      (by rw [hfile, imageFile]; simp only [List.append_assoc]) hm
  have h2 := binaryReadImageCfg_be32 N R C ⟨by omega, hN.2⟩ ⟨by omega, hR.2⟩ ⟨by omega, hC.2⟩ P
  have hpos : 0 ≤ N * R * C := mul_nonneg (mul_nonneg hN.1 hR.1) hC.1
  have hw : wrapInt32 (wrapInt32 (N * R) * C) = N * R * C := by
    rw [wrapInt32_mul]; exact wrapInt32_id _ ⟨by omega, by omega⟩
  have h4 : readFull P (wrapInt32 (wrapInt32 (N * R) * C)).toNat = (Except.ok P, []) := by
    have := readFull_append P [] (wrapInt32 (wrapInt32 (N * R) * C)).toNat (by rw [hw]; omega)
    rwa [List.append_nil] at this
  exact readImageSet_of_data fs loc _ _ _ _ { Count := N, Rows := R, Cols := C } h1 h2
    (by rw [hw]; exact hpos) h4

theorem C2_readImageSet_wellFormed_witness :
    readImageSet (fun _ => some (imageFile 1 2 2 [10, 20, 30, 40])) "train-images"
      = Except.ok (Except.ok { Count := 1, Rows := 2, Cols := 2, Images := [10, 20, 30, 40] }) :=
  C2_readImageSet_wellFormed (fun _ => some (imageFile 1 2 2 [10, 20, 30, 40])) "train-images"
    1 2 2 [10, 20, 30, 40] (by decide) (by decide) (by decide) (by decide) (by decide) rfl

/-! ## Magic mismatch -/

theorem readImageSet_mismatch (fs : FileSystem) (loc : String) (bs : List Byte)
    (hfile : fs loc = some bs) (hlen : 4 ≤ bs.length) (hne : beInt32 bs 0 ≠ ImageMagic) :
    readImageSet fs loc = Except.ok (Except.error
      (GoError.wrap errMagicMismatch "readImageSet: error reading image file")) := by
  exact readImageSet_of_open_error fs loc _
    (newReaderFromFile_mismatch fs loc bs ImageMagic hfile hlen hne)

theorem readLabelSet_mismatch (fs : FileSystem) (loc : String) (bs : List Byte)
    (hfile : fs loc = some bs) (hlen : 4 ≤ bs.length) (hne : beInt32 bs 0 ≠ LabelMagic) :
    readLabelSet fs loc = Except.ok (Except.error
      (GoError.wrap errMagicMismatch "readLabelSet: error reading label file")) := by
  exact readLabelSet_of_open_error fs loc _
    (newReaderFromFile_mismatch fs loc bs LabelMagic hfile hlen hne)

theorem beInt32_eq_of_take_eq (a b : List Byte) (h : a.take 4 = b.take 4) :
    beInt32 a 0 = beInt32 b 0 := by
  rw [← beInt32_take a 4 0 (le_refl _), ← beInt32_take b 4 0 (le_refl _), h]

theorem length_ge_of_take_eq (a b : List Byte) (h : a.take 4 = b.take 4) (hb : 4 ≤ b.length) :
    4 ≤ a.length := by
  have h1 : (a.take 4).length = (b.take 4).length := by rw [h]
  simp only [List.length_take] at h1
  omega

/-- C3: a file of at least four bytes whose first four bytes, read as a big-endian int32,
differ from the expected magic (2051 for `readImageSet`, 2049 for `readLabelSet`) yields no
set and an error whose cause is `errMagicMismatch`; the outcome is the same for every file
with the same first four bytes; a label file given as an image location is refused, and an
image file given as a label location is refused. -/
theorem C3_magic_mismatch (fs : FileSystem) (loc : String) (bs : List Byte)
    (hfile : fs loc = some bs) (hlen : 4 ≤ bs.length) :
    (beInt32 bs 0 ≠ ImageMagic →
      ∃ err, readImageSet fs loc = Except.ok (Except.error err)
        ∧ err = GoError.wrap errMagicMismatch "readImageSet: error reading image file"
        ∧ err.cause = errMagicMismatch
        ∧ ∀ (fs2 : FileSystem) (loc2 : String) (bs2 : List Byte), fs2 loc2 = some bs2 →
            bs2.take 4 = bs.take 4 → readImageSet fs2 loc2 = Except.ok (Except.error err))
    ∧ (beInt32 bs 0 ≠ LabelMagic →
      ∃ err, readLabelSet fs loc = Except.ok (Except.error err)
        ∧ err = GoError.wrap errMagicMismatch "readLabelSet: error reading label file"
        ∧ err.cause = errMagicMismatch
        ∧ ∀ (fs2 : FileSystem) (loc2 : String) (bs2 : List Byte), fs2 loc2 = some bs2 →
            bs2.take 4 = bs.take 4 → readLabelSet fs2 loc2 = Except.ok (Except.error err))
    ∧ (∀ (n : Int) (labels : List Byte), bs = labelFile n labels →
      readImageSet fs loc = Except.ok (Except.error
        (GoError.wrap errMagicMismatch "readImageSet: error reading image file")))
    ∧ (∀ (n r c : Int) (pixels : List Byte), bs = imageFile n r c pixels →
      readLabelSet fs loc = Except.ok (Except.error
        (GoError.wrap errMagicMismatch "readLabelSet: error reading label file"))) := by
  refine ⟨fun hne => ⟨_, readImageSet_mismatch fs loc bs hfile hlen hne, rfl, rfl, ?_⟩,
    fun hne => ⟨_, readLabelSet_mismatch fs loc bs hfile hlen hne, rfl, rfl, ?_⟩, ?_, ?_⟩
  · intro fs2 loc2 bs2 hfile2 htake
    exact readImageSet_mismatch fs2 loc2 bs2 hfile2 (length_ge_of_take_eq _ _ htake hlen)
      (by rw [beInt32_eq_of_take_eq _ _ htake]; exact hne)
  · intro fs2 loc2 bs2 hfile2 htake
    exact readLabelSet_mismatch fs2 loc2 bs2 hfile2 (length_ge_of_take_eq _ _ htake hlen)
      (by rw [beInt32_eq_of_take_eq _ _ htake]; exact hne)
  · intro n labels hbs
    refine readImageSet_mismatch fs loc bs hfile hlen ?_
    rw [hbs, labelFile, List.append_assoc, beInt32_be32_append 2049 (by decide)]
    decide
  · intro n r c pixels hbs
    refine readLabelSet_mismatch fs loc bs hfile hlen ?_
    rw [hbs, imageFile, List.append_assoc, List.append_assoc, List.append_assoc,
      beInt32_be32_append 2051 (by decide)]
    decide

theorem C3_magic_mismatch_witness :
    readImageSet (fun _ => some (labelFile 3 [5, 0, 7])) "train-labels"
      = Except.ok (Except.error
        (GoError.wrap errMagicMismatch "readImageSet: error reading image file")) :=
  (C3_magic_mismatch (fun _ => some (labelFile 3 [5, 0, 7])) "train-labels"
    (labelFile 3 [5, 0, 7]) rfl (by decide)).2.2.1 3 [5, 0, 7] rfl

/-! ## Truncated files -/

/-- C4, as stated, fails: the empty file is shorter than magic and header, and
`readLabelSet` reports it at the stage of the magic (error reading label file), not at the
stage of the header (error reading label config); so does a six byte file with a wrong
magic. -/
theorem C4_counterexample :
    ([] : List Byte).length < 8
    ∧ readLabelSet (fun _ => some []) "labels"
      = Except.ok (Except.error
          (GoError.wrap GoError.eof "readLabelSet: error reading label file"))
    ∧ (¬ ∃ e, readLabelSet (fun _ => some []) "labels"
      = Except.ok (Except.error (GoError.wrap e "readLabelset: error reading label config")))
    ∧ ([0, 0, 0, 0, 0, 0] : List Byte).length < 16
    ∧ readImageSet (fun _ => some [0, 0, 0, 0, 0, 0]) "images"
      = Except.ok (Except.error
          (GoError.wrap errMagicMismatch "readImageSet: error reading image file")) := by
  refine ⟨by decide, by decide, ?_, by decide, by decide⟩
  rintro ⟨e, he⟩
  have h2 : readLabelSet (fun _ => some []) "labels" = Except.ok (Except.error
      (GoError.wrap GoError.eof "readLabelSet: error reading label file")) := by decide
  rw [h2] at he
  injection he with he
  injection he with he
  injection he with _ he
  exact absurd he (by decide)

/-- C4, amended: a file with the expected magic that is shorter than magic plus header
(8 bytes for labels, 16 for images) fails at the header stage (error reading label config,
error reading image config); a file with the expected magic and a complete header fails at
the bulk stage (error reading label data, error reading image data) when it holds fewer
bulk bytes than the element count of the header, which is count for labels and, for images,
count*rows*cols whenever that product is below 2^31. No set is returned. -/
theorem C4_truncation_amended (fs : FileSystem) (loc : String) (bs : List Byte)
    (hfile : fs loc = some bs) (hlen : 4 ≤ bs.length) :
    (beInt32 bs 0 = LabelMagic → bs.length < 8 →
      readLabelSet fs loc = Except.ok (Except.error (GoError.wrap
        (if bs.length = 4 then GoError.eof else GoError.unexpectedEOF)
        "readLabelset: error reading label config")))
    ∧ (beInt32 bs 0 = ImageMagic → bs.length < 16 →
      readImageSet fs loc = Except.ok (Except.error (GoError.wrap
        (if bs.length = 4 then GoError.eof else GoError.unexpectedEOF)
        "readImageSet: error reading image config")))
    ∧ (beInt32 bs 0 = LabelMagic → 8 ≤ bs.length →
      (bs.length : Int) - 8 < beInt32 bs 4 →
      readLabelSet fs loc = Except.ok (Except.error (GoError.wrap
        (if bs.length = 8 then GoError.eof else GoError.unexpectedEOF)
        "readLabelset: error reading label data")))
    ∧ (beInt32 bs 0 = ImageMagic → 16 ≤ bs.length →
      (bs.length : Int) - 16 < beInt32 bs 4 * beInt32 bs 8 * beInt32 bs 12 →
      beInt32 bs 4 * beInt32 bs 8 * beInt32 bs 12 < 2 ^ 31 →
      readImageSet fs loc = Except.ok (Except.error (GoError.wrap
        (if bs.length = 16 then GoError.eof else GoError.unexpectedEOF)
        "readImageSet: error reading image data"))) := by
  refine ⟨fun hm hshort => ?_, fun hm hshort => ?_, fun hm hhdr hbulk => ?_,
    fun hm hhdr hbulk hprod => ?_⟩
  · have hl : (bs.drop 4).length < 4 := by simp; omega
    have e : ((bs.drop 4).length = 0) = (bs.length = 4) := by
      simp only [List.length_drop, eq_iff_iff]; omega
    have h2 := binaryReadLabelCfg_of_lt _ hl
    simp only [e] at h2
    exact readLabelSet_of_cfg_error fs loc _ _ _
      (newReaderFromFile_match fs loc bs LabelMagic hfile hlen hm) h2
  · have hl : (bs.drop 4).length < 12 := by simp; omega
    have e : ((bs.drop 4).length = 0) = (bs.length = 4) := by
      simp only [List.length_drop, eq_iff_iff]; omega
    have h2 := binaryReadImageCfg_of_lt _ hl
    simp only [e] at h2
    exact readImageSet_of_cfg_error fs loc _ _ _
      (newReaderFromFile_match fs loc bs ImageMagic hfile hlen hm) h2
  · have hn : 0 ≤ beInt32 bs 4 := by omega
    have hl : (bs.drop (4 + 4)).length < (beInt32 bs 4).toNat := by simp; omega
    have e : ((bs.drop (4 + 4)).length = 0) = (bs.length = 8) := by
      simp only [List.length_drop, eq_iff_iff]; omega
    have h4 := readFull_of_lt _ _ hl
    simp only [e] at h4
    exact readLabelSet_of_data_error fs loc _ _ _ { Count := beInt32 bs 4 } _
      (newReaderFromFile_match fs loc bs LabelMagic hfile hlen hm)
      (binaryReadLabelCfg_of_le bs 4 (by omega)) hn h4
  · have hn : 0 ≤ beInt32 bs 4 * beInt32 bs 8 * beInt32 bs 12 := by omega
    have hw : wrapInt32 (wrapInt32 (beInt32 bs 4 * beInt32 bs 8) * beInt32 bs 12)
        = beInt32 bs 4 * beInt32 bs 8 * beInt32 bs 12 := by
      rw [wrapInt32_mul]; exact wrapInt32_id _ ⟨by omega, by omega⟩
    have hl : (bs.drop (4 + 12)).length
        < (wrapInt32 (wrapInt32 (beInt32 bs 4 * beInt32 bs 8) * beInt32 bs 12)).toNat := by
      rw [hw]; simp; omega
    have e : ((bs.drop (4 + 12)).length = 0) = (bs.length = 16) := by
      simp only [List.length_drop, eq_iff_iff]; omega
    have h4 := readFull_of_lt _ _ hl
    simp only [e] at h4
    exact readImageSet_of_data_error fs loc _ _ _
      { Count := beInt32 bs 4, Rows := beInt32 bs 8, Cols := beInt32 bs 12 } _
      (newReaderFromFile_match fs loc bs ImageMagic hfile hlen hm)
      (binaryReadImageCfg_of_le bs 4 (by omega)) (by rw [hw]; exact hn) h4

theorem C4_truncation_amended_witness :
    readLabelSet (fun _ => some (be32 2049 ++ be32 3 ++ [5, 0])) "labels"
      = Except.ok (Except.error
          (GoError.wrap GoError.unexpectedEOF "readLabelset: error reading label data")) :=
  (C4_truncation_amended (fun _ => some (be32 2049 ++ be32 3 ++ [5, 0])) "labels"
    (be32 2049 ++ be32 3 ++ [5, 0]) rfl (by decide)).2.2.1 (by decide) (by decide)
    (by decide)

/-! ## Accessors inside the range -/

theorem index_of_lt {α : Type} (s : List α) (i : Int) (h0 : 0 ≤ i) (h1 : i.toNat < s.length) :
    ∃ v, index s i = Except.ok v ∧ s[i.toNat]? = some v := by
  refine ⟨s[i.toNat], ?_, List.getElem?_eq_getElem h1⟩
  simp [index, not_lt.mpr h0, List.getElem?_eq_getElem h1]

/-- C5: on a label set with `len(Labels) == Count`, `GetLabel(offset)` returns
`Labels[offset]` without a panic for every `0 ≤ offset < Count`. -/
theorem C5_GetLabel_in_range (l : LabelSet) (offset : Int)
    (hlen : (l.Labels.length : Int) = l.Count) (h : 0 ≤ offset ∧ offset < l.Count) :
    ∃ v, l.GetLabel offset = Except.ok v ∧ l.Labels[offset.toNat]? = some v := by
  obtain ⟨v, hv, hget⟩ := index_of_lt l.Labels offset h.1 (by omega)
  exact ⟨v, by simp only [LabelSet.GetLabel, if_neg (not_lt.mpr (le_of_lt h.2)), hv], hget⟩

/-- The scenario of C5: the set decoded from magic 2049, count 3, labels 5, 0, 7 has
`GetLabel(1) == 0`. -/
theorem C5_GetLabel_in_range_witness :
    ∃ ls, readLabelSet (fun _ => some (labelFile 3 [5, 0, 7])) "labels"
        = Except.ok (Except.ok ls)
      ∧ ls.GetLabel 1 = Except.ok 0 := by
  refine ⟨{ Count := 3, Labels := [5, 0, 7] }, by decide, ?_⟩
  obtain ⟨v, hv, hget⟩ := C5_GetLabel_in_range { Count := 3, Labels := [5, 0, 7] } 1
    (by decide) (by decide)
  have : v = 0 := by simpa using hget.symm
  rw [hv, this]

theorem wrapInt_id (z : Int) (hz : -2 ^ 63 ≤ z ∧ z < 2 ^ 63) : wrapInt z = z := by
  unfold wrapInt; omega

/-- For an offset inside the range, the products the accessors form do not overflow. -/
theorem offset_bounds (count rows cols offset len : Int) (hR : 0 ≤ rows) (hC : 0 ≤ cols)
    (hlen : len = count * rows * cols) (h : 0 ≤ offset ∧ offset < count) :
    0 ≤ rows * cols ∧ 0 ≤ offset * (rows * cols)
      ∧ offset * (rows * cols) + rows * cols ≤ len := by
  have hsz : 0 ≤ rows * cols := mul_nonneg hR hC
  refine ⟨hsz, mul_nonneg h.1 hsz, ?_⟩
  have h1 : (offset + 1) * (rows * cols) ≤ count * (rows * cols) :=
    mul_le_mul_of_nonneg_right (by omega) hsz
  rw [hlen, mul_assoc]
  linarith [add_mul offset 1 (rows * cols)]

/-- Inside the range `GetFlatImage` is the window of `Images` that starts at
`offset*(Rows*Cols)` and has length `Rows*Cols`, and the window lies inside `Images`. -/
theorem getFlatImage_window (img : ImageSet) (offset : Int)
    (hR : 0 ≤ img.Rows) (hC : 0 ≤ img.Cols)
    (hlen : (img.Images.length : Int) = img.Count * img.Rows * img.Cols)
    (hmax : (img.Images.length : Int) ≤ maxInt) (h : 0 ≤ offset ∧ offset < img.Count) :
    img.GetFlatImage offset = Except.ok
        ((img.Images.drop (offset * (img.Rows * img.Cols)).toNat).take
          (img.Rows * img.Cols).toNat)
      ∧ (offset * (img.Rows * img.Cols)).toNat + (img.Rows * img.Cols).toNat
          ≤ img.Images.length := by
  obtain ⟨hsz, hlo, hhi⟩ := offset_bounds img.Count img.Rows img.Cols offset _ hR hC hlen h
  have hmax2 : (img.Images.length : Int) < 2 ^ 63 := by unfold maxInt at hmax; omega
  have w1 : wrapInt (img.Rows * img.Cols) = img.Rows * img.Cols :=
    wrapInt_id _ ⟨by omega, by omega⟩
  have w2 : wrapInt (offset * (img.Rows * img.Cols)) = offset * (img.Rows * img.Cols) :=
    wrapInt_id _ ⟨by omega, by omega⟩
  have w3 : wrapInt (offset * (img.Rows * img.Cols) + img.Rows * img.Cols)
      = offset * (img.Rows * img.Cols) + img.Rows * img.Cols :=
    wrapInt_id _ ⟨by omega, by omega⟩
  have hcond : 0 ≤ offset * (img.Rows * img.Cols)
      ∧ offset * (img.Rows * img.Cols) ≤ offset * (img.Rows * img.Cols) + img.Rows * img.Cols
      ∧ offset * (img.Rows * img.Cols) + img.Rows * img.Cols ≤ (img.Images.length : Int) :=
    ⟨hlo, by omega, hhi⟩
  have hsub : (offset * (img.Rows * img.Cols) + img.Rows * img.Cols).toNat
      - (offset * (img.Rows * img.Cols)).toNat = (img.Rows * img.Cols).toNat := by omega
  refine ⟨?_, by omega⟩
  unfold ImageSet.GetFlatImage
  rw [if_neg (not_lt.mpr (le_of_lt h.2))]
  simp only [w1, w2, w3, sliceExpr, if_pos hcond, hsub]

/-- C6: on an image set with `Rows, Cols ≥ 0` and `len(Images) == Count*Rows*Cols`,
`GetFlatImage(offset)` returns without a panic, for every `0 ≤ offset < Count`, the
sub-sequence of `Images` of length `Rows*Cols` at the positions
`[offset*Rows*Cols, offset*Rows*Cols + Rows*Cols)`. -/
theorem C6_GetFlatImage_in_range (img : ImageSet) (offset : Int)
    (hR : 0 ≤ img.Rows) (hC : 0 ≤ img.Cols)
    (hlen : (img.Images.length : Int) = img.Count * img.Rows * img.Cols)
    (hmax : (img.Images.length : Int) ≤ maxInt) (h : 0 ≤ offset ∧ offset < img.Count) :
    ∃ s, img.GetFlatImage offset = Except.ok s
      ∧ (s.length : Int) = img.Rows * img.Cols
      ∧ ∀ k : Nat, (k : Int) < img.Rows * img.Cols →
          ∃ v, s[k]? = some v
            ∧ img.Images[(offset * img.Rows * img.Cols).toNat + k]? = some v := by
  obtain ⟨hget, hin⟩ := getFlatImage_window img offset hR hC hlen hmax h
  have hsz : 0 ≤ img.Rows * img.Cols := mul_nonneg hR hC
  have hassoc : offset * img.Rows * img.Cols = offset * (img.Rows * img.Cols) := mul_assoc _ _ _
  refine ⟨_, hget, ?_, ?_⟩
  · simp only [List.length_take, List.length_drop]
    omega
  · intro k hk
    have hk2 : (offset * (img.Rows * img.Cols)).toNat + k < img.Images.length := by omega
    refine ⟨img.Images[(offset * (img.Rows * img.Cols)).toNat + k], ?_, ?_⟩
    · rw [List.getElem?_take, if_pos (by omega), List.getElem?_drop,
        List.getElem?_eq_getElem hk2]
    · rw [hassoc, List.getElem?_eq_getElem hk2]

/-- The scenario of C6: count 1, rows 2, cols 2, pixels 10, 20, 30, 40. -/
theorem C6_GetFlatImage_in_range_witness :
    (ImageSet.mk 1 2 2 [10, 20, 30, 40]).GetFlatImage 0 = Except.ok [10, 20, 30, 40]
    ∧ ∃ s, (ImageSet.mk 1 2 2 [10, 20, 30, 40]).GetFlatImage 0 = Except.ok s
      ∧ (s.length : Int) = 2 * 2
      ∧ ∀ k : Nat, (k : Int) < 2 * 2 →
          ∃ v, s[k]? = some v
            ∧ ([10, 20, 30, 40] : List Byte)[((0 : Int) * 2 * 2).toNat + k]? = some v :=
  ⟨by decide, C6_GetFlatImage_in_range (ImageSet.mk 1 2 2 [10, 20, 30, 40]) 0
    (by decide) (by decide) (by decide) (by decide) (by decide)⟩

/-! ## Bounded loops -/

theorem forRange_succ {σ : Type} (n : Nat) (body : σ → Nat → Except Panic σ) (init : σ) :
    forRange (n + 1) body init
      = (match forRange n body init with
        | Except.error p => Except.error p
        | Except.ok s => body s n) := by
  unfold forRange
  rw [List.range_succ, List.foldlM_append]
  cases List.foldlM body init (List.range n) with
  | error p => rfl
  | ok s =>
    show (List.foldlM body s [n]) = body s n
    simp only [List.foldlM_cons, List.foldlM_nil]
    cases body s n <;> rfl

/-- A loop whose every iteration keeps an invariant and does not panic runs to its end. -/
theorem forRange_invariant {σ : Type} (Inv : Nat → σ → Prop)
    (body : σ → Nat → Except Panic σ) (n : Nat) (init : σ) (h0 : Inv 0 init)
    (hstep : ∀ k s, k < n → Inv k s → ∃ s2, body s k = Except.ok s2 ∧ Inv (k + 1) s2) :
    ∃ s, forRange n body init = Except.ok s ∧ Inv n s := by
  induction n with
  | zero => exact ⟨init, rfl, h0⟩
  | succ n ih =>
    obtain ⟨s, hs, hinv⟩ := ih (fun k s hk => hstep k s (by omega))
    obtain ⟨s2, hb, hinv2⟩ := hstep n s (by omega) hinv
    exact ⟨s2, by rw [forRange_succ, hs]; exact hb, hinv2⟩

/-! ## The grid of `GetImage` -/

theorem fillRows_eq (cols : Int) (hc : 0 ≤ cols) (l : List (List Byte)) :
    fillRows cols l
      = Except.ok (List.replicate l.length (List.replicate cols.toNat (0 : Byte))) := by
  induction l with
  | nil => rfl
  | cons a rest ih =>
    unfold fillRows
    rw [makeSlice_nonneg _ _ hc, ih]
    rfl

theorem isGrid_replicate (r c : Nat) :
    isGrid r c (List.replicate r (List.replicate c (0 : Byte))) := by
  refine ⟨List.length_replicate _ _, fun row hrow => ?_⟩
  rw [List.eq_of_mem_replicate hrow, List.length_replicate]

theorem index_natCast {α : Type} (s : List α) (i : Nat) (v : α) (h : s[i]? = some v) :
    index s (i : Int) = Except.ok v := by
  unfold index
  rw [if_neg (by omega), Int.toNat_ofNat, h]

theorem assignIndex_natCast {α : Type} (s : List α) (i : Nat) (v : α) (h : i < s.length) :
    assignIndex s (i : Int) v = Except.ok (s.set i v) := by
  unfold assignIndex
  rw [if_neg (by omega), Int.toNat_ofNat, if_pos h]

/-- One assignment `m[x][y] = v` inside a grid changes the element at `(x, y)` only. -/
theorem assignPixel_ok (img : ImageSet) (imgStart r : Int) (rows cols : Nat) (y x : Nat)
    (m : List (List Byte)) (v : Byte) (hm : isGrid rows cols m) (hx : x < rows)
    (hy : y < cols)
    (hv : index img.Images (wrapInt (imgStart + wrapInt (wrapInt ((y : Int) * r) + (x : Int))))
      = Except.ok v) :
    ∃ m2, img.assignPixel imgStart r y m x = Except.ok m2 ∧ isGrid rows cols m2
      ∧ ∀ x2 y2, gridAt m2 x2 y2 = if x2 = x ∧ y2 = y then some v else gridAt m x2 y2 := by
  obtain ⟨hlen, hrows⟩ := hm
  have hxm : x < m.length := by omega
  have hrow : m[x]? = some m[x] := List.getElem?_eq_getElem hxm
  have hrl : (m[x]).length = cols := hrows _ (List.getElem_mem hxm)
  refine ⟨m.set x ((m[x]).set y v), ?_, ⟨?_, ?_⟩, ?_⟩
  · unfold ImageSet.assignPixel
    simp only [index_natCast m x _ hrow, hv, assignIndex_natCast (m[x]) y v (by omega)]
  · rw [List.length_set, hlen]
  · intro row hrow2
    rcases List.mem_or_eq_of_mem_set hrow2 with h | h
    · exact hrows _ h
    · rw [h, List.length_set, hrl]
  · intro x2 y2
    unfold gridAt
    by_cases hxx : x2 = x
    · subst hxx
      rw [List.getElem?_set_self hxm, hrow]
      by_cases hyy : y2 = y
      · subst hyy
        simp only [and_self, if_true]
        exact List.getElem?_set_self (by omega)
      · simp only [hyy, and_false, if_false]
        exact List.getElem?_set_ne (fun h => hyy h.symm)
    · simp only [hxx, false_and, if_false]
      rw [List.getElem?_set_ne (fun h => hxx h.symm)]

/-- With at least one row, `GetImage` past its guard is the double loop over the zero
grid of `Rows` by `Cols`. -/
theorem getImage_unfold (img : ImageSet) (offset : Int) (hoff : ¬ offset > img.Count)
    (hR : 1 ≤ img.Rows) (hC : 0 ≤ img.Cols) :
    img.GetImage offset
      = forRange img.Rows.toNat
          (fun m1 y => forRange img.Cols.toNat
            (img.assignPixel (wrapInt (wrapInt (offset * img.Rows) * img.Cols)) img.Rows y) m1)
          (List.replicate img.Rows.toNat (List.replicate img.Cols.toNat (0 : Byte))) := by
  have h0 : index (List.replicate img.Rows.toNat (List.replicate img.Cols.toNat (0 : Byte)))
      ((0 : Nat) : Int) = Except.ok (List.replicate img.Cols.toNat (0 : Byte)) :=
    index_natCast _ 0 _ (List.getElem?_replicate_of_lt (by omega))
  rw [Nat.cast_zero] at h0
  unfold ImageSet.GetImage
  rw [if_neg hoff, makeSlice_nonneg _ _ (by omega)]
  simp only [fillRows_eq _ hC, List.length_replicate, h0,
    Int.toNat_of_nonneg (show 0 ≤ img.Rows by omega), Int.toNat_of_nonneg hC]

theorem pixel_bounds (count n offset len x y : Int) (hn : 1 ≤ n) (hlen : len = count * n * n)
    (h : 0 ≤ offset ∧ offset < count) (hx : 0 ≤ x ∧ x < n) (hy : 0 ≤ y ∧ y < n) :
    0 ≤ offset * n ∧ offset * n ≤ len ∧ 0 ≤ offset * n * n ∧ 0 ≤ y * n
      ∧ y * n + x < n * n ∧ offset * n * n + (y * n + x) < len := by
  have hnn : n ≤ n * n := by nlinarith
  have h1 : 0 ≤ offset * n := mul_nonneg h.1 (by omega)
  have h2 : 0 ≤ offset * n * n := mul_nonneg h1 (by omega)
  have h3 : 0 ≤ y * n := mul_nonneg hy.1 (by omega)
  have h4 : y * n ≤ (n - 1) * n := mul_le_mul_of_nonneg_right (by omega) (by omega)
  have h5 : (offset + 1) * (n * n) ≤ count * (n * n) :=
    mul_le_mul_of_nonneg_right (by omega) (by nlinarith)
  have h6 : offset * n ≤ offset * n * n := by nlinarith
  have h7 : (n - 1) * n = n * n - n := by ring
  have h8 : (offset + 1) * (n * n) = offset * n * n + n * n := by ring
  have h9 : count * (n * n) = count * n * n := by ring
  refine ⟨h1, by omega, h2, h3, by omega, by omega⟩

theorem start_wrap (count n offset len : Int) (hn : 1 ≤ n) (hlen : len = count * n * n)
    (hmax : len < 2 ^ 63) (h : 0 ≤ offset ∧ offset < count) :
    wrapInt (wrapInt (offset * n) * n) = offset * n * n := by
  obtain ⟨h1, h2, h3, -, -, h6⟩ := pixel_bounds count n offset len 0 0 hn hlen h
    ⟨le_refl _, by omega⟩ ⟨le_refl _, by omega⟩
  rw [wrapInt_id (offset * n) ⟨by omega, by omega⟩]
  exact wrapInt_id _ ⟨by omega, by omega⟩

theorem pixel_wrap (count n offset len x y : Int) (hn : 1 ≤ n) (hlen : len = count * n * n)
    (hmax : len < 2 ^ 63) (h : 0 ≤ offset ∧ offset < count) (hx : 0 ≤ x ∧ x < n)
    (hy : 0 ≤ y ∧ y < n) :
    wrapInt (offset * n * n + wrapInt (wrapInt (y * n) + x)) = offset * n * n + (y * n + x)
      ∧ 0 ≤ offset * n * n + (y * n + x) ∧ offset * n * n + (y * n + x) < len := by
  obtain ⟨-, -, h3, h4, h5, h6⟩ := pixel_bounds count n offset len x y hn hlen h hx hy
  rw [wrapInt_id (y * n) ⟨by omega, by omega⟩, wrapInt_id (y * n + x) ⟨by omega, by omega⟩,
    wrapInt_id _ ⟨by omega, by omega⟩]
  exact ⟨rfl, by omega, h6⟩

/-- The pixel the loop body of `GetImage` reads at `(x, y)` on a square image. -/
theorem pixel_index (img : ImageSet) (offset : Int) (n x y : Nat) (hn : 1 ≤ n)
    (hlen : (img.Images.length : Int) = img.Count * (n : Int) * (n : Int))
    (hmax : (img.Images.length : Int) ≤ maxInt) (h : 0 ≤ offset ∧ offset < img.Count)
    (hx : x < n) (hy : y < n) :
    ∃ v, index img.Images (wrapInt (offset * (n : Int) * (n : Int)
          + wrapInt (wrapInt ((y : Int) * (n : Int)) + (x : Int)))) = Except.ok v
      ∧ img.Images[(offset * (n : Int) * (n : Int)
          + ((y : Int) * (n : Int) + (x : Int))).toNat]? = some v := by
  have hmax2 : (img.Images.length : Int) < 2 ^ 63 := by unfold maxInt at hmax; omega
  obtain ⟨hw, h0, h1⟩ := pixel_wrap img.Count n offset _ x y (Int.toNat_le.mp hn) hlen hmax2 h
    ⟨Int.natCast_nonneg _, Int.ofNat_lt.mpr hx⟩ ⟨Int.natCast_nonneg _, Int.ofNat_lt.mpr hy⟩
  rw [hw]
  exact index_of_lt img.Images _ h0 ((Int.toNat_lt h0).mpr h1)

/-- On a square image inside the range `GetImage` returns a grid `m` of `n` by `n` with
`m[x][y] = Images[offset*n*n + (y*n + x)]`. -/
theorem getImage_square (img : ImageSet) (offset : Int) (n : Nat) (hn : 1 ≤ n)
    (hR : img.Rows = (n : Int)) (hC : img.Cols = (n : Int))
    (hlen : (img.Images.length : Int) = img.Count * (n : Int) * (n : Int))
    (hmax : (img.Images.length : Int) ≤ maxInt) (h : 0 ≤ offset ∧ offset < img.Count) :
    ∃ m, img.GetImage offset = Except.ok m ∧ isGrid n n m
      ∧ ∀ x y : Nat, x < n → y < n →
          gridAt m x y
            = img.Images[(offset * (n : Int) * (n : Int)
                + ((y : Int) * (n : Int) + (x : Int))).toNat]? := by
  have hn1 : (1 : Int) ≤ (n : Int) := Int.toNat_le.mp hn
  have hstart := start_wrap img.Count n offset _ hn1 hlen
    (lt_of_le_of_lt hmax (by decide)) h
  rw [getImage_unfold img offset (not_lt.mpr (le_of_lt h.2)) (hR ▸ hn1)
    (hC ▸ Int.natCast_nonneg n), hR, hC, Int.toNat_ofNat, hstart]
  refine forRange_invariant
    (fun y m => isGrid n n m ∧ ∀ x2 y2 : Nat, x2 < n → y2 < y →
      gridAt m x2 y2 = img.Images[(offset * (n : Int) * (n : Int)
        + ((y2 : Int) * (n : Int) + (x2 : Int))).toNat]?) _ n _
    ⟨isGrid_replicate n n, fun x2 y2 _ hy2 => absurd hy2 (Nat.not_lt_zero _)⟩ ?_
  intro y m hy hinv
  obtain ⟨m2, hrun, hgrid, hcells⟩ := forRange_invariant
    (fun x m1 => isGrid n n m1 ∧ ∀ x2 y2 : Nat, x2 < n → (y2 < y ∨ (y2 = y ∧ x2 < x)) →
      gridAt m1 x2 y2 = img.Images[(offset * (n : Int) * (n : Int)
        + ((y2 : Int) * (n : Int) + (x2 : Int))).toNat]?)
    (img.assignPixel (offset * (n : Int) * (n : Int)) (n : Int) y) n m
    ⟨hinv.1, fun x2 y2 hx2 hc => by
      rcases hc with hc | hc
      · exact hinv.2 x2 y2 hx2 hc
      · exact absurd hc.2 (Nat.not_lt_zero _)⟩
    (by
      intro x m1 hx hinv1
      obtain ⟨v, hv, hget⟩ := pixel_index img offset n x y hn hlen hmax h hx hy
      obtain ⟨m2, hm2, hgrid2, hcell2⟩ := assignPixel_ok img (offset * (n : Int) * (n : Int))
        (n : Int) n n y x m1 v hinv1.1 hx hy hv
      refine ⟨m2, hm2, hgrid2, fun x2 y2 hx2 hc => ?_⟩
      rw [hcell2]
      by_cases hxy : x2 = x ∧ y2 = y
      · rw [if_pos hxy, hxy.1, hxy.2, hget]
      · rw [if_neg hxy]
        refine hinv1.2 x2 y2 hx2 ?_
        rcases hc with hc | hc
        · exact Or.inl hc
        · exact Or.inr ⟨hc.1, by
            rcases Nat.lt_succ_iff_lt_or_eq.mp hc.2 with h3 | h3
            · exact h3
            · exact absurd ⟨h3, hc.1⟩ hxy⟩)
  refine ⟨m2, hrun, hgrid, fun x2 y2 hx2 hy2 => hcells x2 y2 hx2 ?_⟩
  rcases Nat.lt_succ_iff_lt_or_eq.mp hy2 with h3 | h3
  · exact Or.inl h3
  · exact Or.inr ⟨h3, hx2⟩

theorem flat_index (count n offset len x y : Int) (hn : 1 ≤ n) (hlen : len = count * n * n)
    (h : 0 ≤ offset ∧ offset < count) (hx : 0 ≤ x ∧ x < n) (hy : 0 ≤ y ∧ y < n) :
    (y * n + x).toNat < (n * n).toNat
      ∧ (offset * (n * n)).toNat + (y * n + x).toNat
        = (offset * n * n + (y * n + x)).toNat := by
  obtain ⟨-, -, h3, h4, h5, -⟩ := pixel_bounds count n offset len x y hn hlen h hx hy
  have e : offset * (n * n) = offset * n * n := by ring
  rw [e]
  constructor <;> omega

/-- C7: on a square image set (`Rows == Cols ≥ 1`, `len(Images) == Count*Rows*Cols`), for every
image `i` in `[0, Count)` and all `x, y` in `[0, Rows)`,
`GetImage(i)[x][y] == GetFlatImage(i)[y*Rows + x] == Images[i*Rows*Cols + y*Rows + x]`. -/
theorem C7_GetImage_GetFlatImage_square (img : ImageSet) (i : Int)
    (hsq : img.Rows = img.Cols) (h1 : 1 ≤ img.Rows)
    (hlen : (img.Images.length : Int) = img.Count * img.Rows * img.Cols)
    (hmax : (img.Images.length : Int) ≤ maxInt) (hi : 0 ≤ i ∧ i < img.Count) :
    ∃ m flat, img.GetImage i = Except.ok m ∧ img.GetFlatImage i = Except.ok flat
      ∧ ∀ x y : Nat, (x : Int) < img.Rows → (y : Int) < img.Rows →
          ∃ v, gridAt m x y = some v
            ∧ flat[((y : Int) * img.Rows + (x : Int)).toNat]? = some v
            ∧ img.Images[(i * img.Rows * img.Cols + (y : Int) * img.Rows
                + (x : Int)).toNat]? = some v := by
  have hR0 : 0 ≤ img.Rows := le_trans (by decide) h1
  obtain ⟨hflat, -⟩ := getFlatImage_window img i hR0 (hsq ▸ hR0) hlen hmax hi
  obtain ⟨n, hn⟩ : ∃ n : Nat, img.Rows = (n : Int) :=
    ⟨img.Rows.toNat, (Int.toNat_of_nonneg hR0).symm⟩
  have hC : img.Cols = (n : Int) := hsq ▸ hn
  rw [hC] at hlen
  rw [hn] at hlen h1
  have hn1 : 1 ≤ n := Int.toNat_le.mpr h1
  obtain ⟨m, hm, -, hcells⟩ := getImage_square img i n hn1 hn hC hlen hmax hi
  refine ⟨m, _, hm, hflat, fun x y hx hy => ?_⟩
  rw [hn] at hx hy
  have hx2 : x < n := Int.ofNat_lt.mp hx
  have hy2 : y < n := Int.ofNat_lt.mp hy
  obtain ⟨v, -, hv⟩ := pixel_index img i n x y hn1 hlen hmax hi hx2 hy2
  obtain ⟨hk, hsum⟩ := flat_index img.Count n i _ x y h1 hlen hi
    ⟨Int.natCast_nonneg _, hx⟩ ⟨Int.natCast_nonneg _, hy⟩
  refine ⟨v, by rw [hcells x y hx2 hy2, hv], ?_, ?_⟩
  · rw [hn, hC, List.getElem?_take, if_pos hk, List.getElem?_drop, hsum, hv]
  · rw [hn, hC, add_assoc, hv]

/-- The scenario of C7: pixels 10, 20, 30, 40 with rows = cols = 2 give the grid
`[[10, 30], [20, 40]]`. -/
theorem C7_GetImage_GetFlatImage_square_witness :
    (ImageSet.mk 1 2 2 [10, 20, 30, 40]).GetImage 0 = Except.ok [[10, 30], [20, 40]]
    ∧ ∃ m flat, (ImageSet.mk 1 2 2 [10, 20, 30, 40]).GetImage 0 = Except.ok m
      ∧ (ImageSet.mk 1 2 2 [10, 20, 30, 40]).GetFlatImage 0 = Except.ok flat
      ∧ ∀ x y : Nat, (x : Int) < 2 → (y : Int) < 2 →
          ∃ v, gridAt m x y = some v
            ∧ flat[((y : Int) * 2 + (x : Int)).toNat]? = some v
            ∧ ([10, 20, 30, 40] : List Byte)[((0 : Int) * 2 * 2 + (y : Int) * 2
                + (x : Int)).toNat]? = some v :=
  ⟨by decide, C7_GetImage_GetFlatImage_square (ImageSet.mk 1 2 2 [10, 20, 30, 40]) 0
    (by decide) (by decide) (by decide) (by decide) (by decide)⟩

/-! ## Non-square images -/

/-- C8 fails on the code: the image set with count 1, rows 1, cols 2 and pixels 10, 20 meets
the conditions of the claim (`Rows, Cols ≥ 1`, `len(Images) == Count*Rows*Cols`, offset 0 in
`[0, Count)`), and `GetImage(0)` panics with an index out of range instead of returning a
grid of 1 by 2: the grid is allocated with `Rows` rows of `Cols` elements and written at
`m[x][y]` with `x < Cols`, `y < Rows`. The same holds for rows 2, cols 1. -/
theorem C8_GetImage_nonsquare_panics :
    (1 : Int) ≤ (ImageSet.mk 1 1 2 [10, 20]).Rows
    ∧ (1 : Int) ≤ (ImageSet.mk 1 1 2 [10, 20]).Cols
    ∧ ((ImageSet.mk 1 1 2 [10, 20]).Images.length : Int) = 1 * 1 * 2
    ∧ (ImageSet.mk 1 1 2 [10, 20]).GetImage 0 = Except.error (Panic.indexOutOfRange 1 1)
    ∧ (ImageSet.mk 2 2 1 [10, 20, 30, 40]).GetImage 0
      = Except.error (Panic.indexOutOfRange 1 1) :=
  ⟨by decide, by decide, by decide, by decide, by decide⟩

/-! ## The orchestrator -/

theorem readImageSet_congr (fs fs2 : FileSystem) (loc : String) (h : fs2 loc = fs loc) :
    readImageSet fs2 loc = readImageSet fs loc := by
  unfold readImageSet newReaderFromFile
  rw [h]

theorem readLabelSet_congr (fs fs2 : FileSystem) (loc : String) (h : fs2 loc = fs loc) :
    readLabelSet fs2 loc = readLabelSet fs loc := by
  unfold readLabelSet newReaderFromFile
  rw [h]

theorem stepTrainingImages_congr (fs fs2 : FileSystem) (loc : String)
    (h : loc ≠ "" → fs2 loc = fs loc) (r : Reader) :
    (if loc ≠ "" then r.assignTrainingImages fs2 loc else Except.ok (r, none))
      = (if loc ≠ "" then r.assignTrainingImages fs loc else Except.ok (r, none)) := by
  by_cases hl : loc ≠ ""
  · rw [if_pos hl, if_pos hl]
    unfold Reader.assignTrainingImages
    rw [readImageSet_congr fs fs2 loc (h hl)]
  · rw [if_neg hl, if_neg hl]

theorem stepTrainingLabels_congr (fs fs2 : FileSystem) (loc : String)
    (h : loc ≠ "" → fs2 loc = fs loc) (r : Reader) :
    (if loc ≠ "" then r.assignTrainingLabels fs2 loc else Except.ok (r, none))
      = (if loc ≠ "" then r.assignTrainingLabels fs loc else Except.ok (r, none)) := by
  by_cases hl : loc ≠ ""
  · rw [if_pos hl, if_pos hl]
    unfold Reader.assignTrainingLabels
    rw [readLabelSet_congr fs fs2 loc (h hl)]
  · rw [if_neg hl, if_neg hl]

theorem stepTestingImages_congr (fs fs2 : FileSystem) (loc : String)
    (h : loc ≠ "" → fs2 loc = fs loc) (r : Reader) :
    (if loc ≠ "" then r.assignTestingImages fs2 loc else Except.ok (r, none))
      = (if loc ≠ "" then r.assignTestingImages fs loc else Except.ok (r, none)) := by
  by_cases hl : loc ≠ ""
  · rw [if_pos hl, if_pos hl]
    unfold Reader.assignTestingImages
    rw [readImageSet_congr fs fs2 loc (h hl)]
  · rw [if_neg hl, if_neg hl]

theorem stepTestingLabels_congr (fs fs2 : FileSystem) (loc : String)
    (h : loc ≠ "" → fs2 loc = fs loc) (r : Reader) :
    (if loc ≠ "" then r.assignTestingLabels fs2 loc else Except.ok (r, none))
      = (if loc ≠ "" then r.assignTestingLabels fs loc else Except.ok (r, none)) := by
  by_cases hl : loc ≠ ""
  · rw [if_pos hl, if_pos hl]
    unfold Reader.assignTestingLabels
    rw [readLabelSet_congr fs fs2 loc (h hl)]
  · rw [if_neg hl, if_neg hl]

/-- The outcome of `New` depends on the file system only at the non-empty locations. -/
theorem New_congr (fs fs2 : FileSystem) (locs : Files)
    (h1 : locs.TrainingImagesLoc ≠ "" → fs2 locs.TrainingImagesLoc = fs locs.TrainingImagesLoc)
    (h2 : locs.TrainingLabelsLoc ≠ "" → fs2 locs.TrainingLabelsLoc = fs locs.TrainingLabelsLoc)
    (h3 : locs.TestingImagesLoc ≠ "" → fs2 locs.TestingImagesLoc = fs locs.TestingImagesLoc)
    (h4 : locs.TestingLabelsLoc ≠ "" → fs2 locs.TestingLabelsLoc = fs locs.TestingLabelsLoc) :
    New fs2 locs = New fs locs := by
  unfold New Reader.process
  simp only [stepTrainingImages_congr fs fs2 _ h1, stepTrainingLabels_congr fs fs2 _ h2,
    stepTestingImages_congr fs fs2 _ h3, stepTestingLabels_congr fs fs2 _ h4]

theorem stepTrainingImages_ok (fs : FileSystem) (loc : String) (r : Reader)
    (hr : r.TrainingImages = none)
    (h : loc ≠ "" → ∃ s, readImageSet fs loc = Except.ok (Except.ok s)) :
    ∃ o, (if loc ≠ "" then r.assignTrainingImages fs loc else Except.ok (r, none))
        = Except.ok ({ r with TrainingImages := o }, none)
      ∧ (o.isSome ↔ loc ≠ "")
      ∧ ∀ s, o = some s → readImageSet fs loc = Except.ok (Except.ok s) := by
  by_cases hl : loc ≠ ""
  · obtain ⟨s, hs⟩ := h hl
    refine ⟨some s, ?_, by simp [hl], fun s2 h2 => by rw [← Option.some.inj h2]; exact hs⟩
    rw [if_pos hl]
    unfold Reader.assignTrainingImages
    rw [hs]
  · refine ⟨none, ?_, by simp [hl], fun s2 h2 => by cases h2⟩
    rw [if_neg hl, ← hr]

theorem stepTrainingLabels_ok (fs : FileSystem) (loc : String) (r : Reader)
    (hr : r.TrainingLabels = none)
    (h : loc ≠ "" → ∃ s, readLabelSet fs loc = Except.ok (Except.ok s)) :
    ∃ o, (if loc ≠ "" then r.assignTrainingLabels fs loc else Except.ok (r, none))
        = Except.ok ({ r with TrainingLabels := o }, none)
      ∧ (o.isSome ↔ loc ≠ "")
      ∧ ∀ s, o = some s → readLabelSet fs loc = Except.ok (Except.ok s) := by
  by_cases hl : loc ≠ ""
  · obtain ⟨s, hs⟩ := h hl
    refine ⟨some s, ?_, by simp [hl], fun s2 h2 => by rw [← Option.some.inj h2]; exact hs⟩
    rw [if_pos hl]
    unfold Reader.assignTrainingLabels
    rw [hs]
  · refine ⟨none, ?_, by simp [hl], fun s2 h2 => by cases h2⟩
    rw [if_neg hl, ← hr]

theorem stepTestingImages_ok (fs : FileSystem) (loc : String) (r : Reader)
    (hr : r.TestingImages = none)
    (h : loc ≠ "" → ∃ s, readImageSet fs loc = Except.ok (Except.ok s)) :
    ∃ o, (if loc ≠ "" then r.assignTestingImages fs loc else Except.ok (r, none))
        = Except.ok ({ r with TestingImages := o }, none)
      ∧ (o.isSome ↔ loc ≠ "")
      ∧ ∀ s, o = some s → readImageSet fs loc = Except.ok (Except.ok s) := by
  by_cases hl : loc ≠ ""
  · obtain ⟨s, hs⟩ := h hl
    refine ⟨some s, ?_, by simp [hl], fun s2 h2 => by rw [← Option.some.inj h2]; exact hs⟩
    rw [if_pos hl]
    unfold Reader.assignTestingImages
    rw [hs]
  · refine ⟨none, ?_, by simp [hl], fun s2 h2 => by cases h2⟩
    rw [if_neg hl, ← hr]

theorem stepTestingLabels_ok (fs : FileSystem) (loc : String) (r : Reader)
    (hr : r.TestingLabels = none)
    (h : loc ≠ "" → ∃ s, readLabelSet fs loc = Except.ok (Except.ok s)) :
    ∃ o, (if loc ≠ "" then r.assignTestingLabels fs loc else Except.ok (r, none))
        = Except.ok ({ r with TestingLabels := o }, none)
      ∧ (o.isSome ↔ loc ≠ "")
      ∧ ∀ s, o = some s → readLabelSet fs loc = Except.ok (Except.ok s) := by
  by_cases hl : loc ≠ ""
  · obtain ⟨s, hs⟩ := h hl
    refine ⟨some s, ?_, by simp [hl], fun s2 h2 => by rw [← Option.some.inj h2]; exact hs⟩
    rw [if_pos hl]
    unfold Reader.assignTestingLabels
    rw [hs]
  · refine ⟨none, ?_, by simp [hl], fun s2 h2 => by cases h2⟩
    rw [if_neg hl, ← hr]

/-- C9: when every non-empty location of `locs` names a file that decodes successfully, `New`
returns no error and a reader in which each of the four sets is present exactly when its
location is non-empty, each present set being the decode of the file at that location; and
the outcome of `New` is the same on every file system that agrees on the non-empty
locations, whatever is or is not at any other path. -/
theorem C9_subset_loading (fs : FileSystem) (locs : Files)
    (h1 : locs.TrainingImagesLoc ≠ "" →
      ∃ s, readImageSet fs locs.TrainingImagesLoc = Except.ok (Except.ok s))
    (h2 : locs.TrainingLabelsLoc ≠ "" →
      ∃ s, readLabelSet fs locs.TrainingLabelsLoc = Except.ok (Except.ok s))
    (h3 : locs.TestingImagesLoc ≠ "" →
      ∃ s, readImageSet fs locs.TestingImagesLoc = Except.ok (Except.ok s))
    (h4 : locs.TestingLabelsLoc ≠ "" →
      ∃ s, readLabelSet fs locs.TestingLabelsLoc = Except.ok (Except.ok s)) :
    (∃ r, New fs locs = Except.ok (r, none)
      ∧ (r.TrainingImages.isSome ↔ locs.TrainingImagesLoc ≠ "")
      ∧ (r.TrainingLabels.isSome ↔ locs.TrainingLabelsLoc ≠ "")
      ∧ (r.TestingImages.isSome ↔ locs.TestingImagesLoc ≠ "")
      ∧ (r.TestingLabels.isSome ↔ locs.TestingLabelsLoc ≠ "")
      ∧ (∀ s, r.TrainingImages = some s →
          readImageSet fs locs.TrainingImagesLoc = Except.ok (Except.ok s))
      ∧ (∀ s, r.TrainingLabels = some s →
          readLabelSet fs locs.TrainingLabelsLoc = Except.ok (Except.ok s))
      ∧ (∀ s, r.TestingImages = some s →
          readImageSet fs locs.TestingImagesLoc = Except.ok (Except.ok s))
      ∧ (∀ s, r.TestingLabels = some s →
          readLabelSet fs locs.TestingLabelsLoc = Except.ok (Except.ok s)))
    ∧ ∀ fs2 : FileSystem,
        (locs.TrainingImagesLoc ≠ "" →
          fs2 locs.TrainingImagesLoc = fs locs.TrainingImagesLoc) →
        (locs.TrainingLabelsLoc ≠ "" →
          fs2 locs.TrainingLabelsLoc = fs locs.TrainingLabelsLoc) →
        (locs.TestingImagesLoc ≠ "" →
          fs2 locs.TestingImagesLoc = fs locs.TestingImagesLoc) →
        (locs.TestingLabelsLoc ≠ "" →
          fs2 locs.TestingLabelsLoc = fs locs.TestingLabelsLoc) →
        New fs2 locs = New fs locs := by
  refine ⟨?_, fun fs2 g1 g2 g3 g4 => New_congr fs fs2 locs g1 g2 g3 g4⟩
  obtain ⟨o1, e1, p1, q1⟩ := stepTrainingImages_ok fs locs.TrainingImagesLoc
    { TrainingImages := none, TestingImages := none, TrainingLabels := none,
      TestingLabels := none } rfl h1
  obtain ⟨o2, e2, p2, q2⟩ := stepTrainingLabels_ok fs locs.TrainingLabelsLoc
    { TrainingImages := o1, TestingImages := none, TrainingLabels := none,
      TestingLabels := none } rfl h2
  obtain ⟨o3, e3, p3, q3⟩ := stepTestingImages_ok fs locs.TestingImagesLoc
    { TrainingImages := o1, TestingImages := none, TrainingLabels := o2,
      TestingLabels := none } rfl h3
  obtain ⟨o4, e4, p4, q4⟩ := stepTestingLabels_ok fs locs.TestingLabelsLoc
    { TrainingImages := o1, TestingImages := o3, TrainingLabels := o2,
      TestingLabels := none } rfl h4
  refine ⟨Reader.mk o1 o3 o2 o4, ?_, p1, p2, p3, p4, q1, q2, q3, q4⟩
  unfold New Reader.process
  simp only [e1, e2, e3, e4]

/-- The scenario of C9: only the training labels are supplied, and no other path exists. -/
theorem C9_subset_loading_witness :
    ∃ r, New (fun p => if p = "train-labels" then some (labelFile 3 [5, 0, 7]) else none)
          ⟨"", "train-labels", "", ""⟩ = Except.ok (r, none)
      ∧ (r.TrainingImages.isSome ↔ ("" : String) ≠ "")
      ∧ (r.TrainingLabels.isSome ↔ ("train-labels" : String) ≠ "") :=
  let ⟨r, h, p1, p2, _⟩ := (C9_subset_loading
    (fun p => if p = "train-labels" then some (labelFile 3 [5, 0, 7]) else none)
    ⟨"", "train-labels", "", ""⟩ (fun h => absurd rfl h) (fun _ => ⟨⟨3, [5, 0, 7]⟩, by decide⟩)
    (fun h => absurd rfl h) (fun h => absurd rfl h)).1
  ⟨r, h, p1, p2⟩

/-! ## Accessors outside the range -/

theorem index_out_of_range {α : Type} (s : List α) (i : Int)
    (h : i < 0 ∨ (s.length : Int) ≤ i) :
    index s i = Except.error (Panic.indexOutOfRange i s.length) := by
  unfold index
  by_cases h0 : i < 0
  · rw [if_pos h0]
  · rw [if_neg h0, List.getElem?_eq_none (by omega)]

/-- `GetLabel` panics for every offset outside `[0, Count)`. -/
theorem GetLabel_out_of_range (l : LabelSet) (offset : Int)
    (hlen : (l.Labels.length : Int) = l.Count) (h : offset < 0 ∨ l.Count ≤ offset) :
    ∃ p, l.GetLabel offset = Except.error p := by
  unfold LabelSet.GetLabel
  by_cases hg : offset > l.Count
  · exact ⟨_, if_pos hg⟩
  · rw [if_neg hg]
    exact ⟨_, index_out_of_range _ _ (by omega)⟩

/-- C10 fails on the code for negative offsets: the guard of the accessors only tests
`offset > Count`, and the products `offset*sz` and `offset*r*c` wrap around in 64 bit
arithmetic. On the image set with count 1, rows 2, cols 1, pixels 10, 20 the call
`GetFlatImage(-2^63)` returns the image 0 instead of panicking, and on the image set with
count 1, rows 2, cols 2, pixels 10, 20, 30, 40 the call `GetImage(-2^62)` returns the grid of
the image 0. -/
theorem C10_negative_offset_returns :
    ((ImageSet.mk 1 2 1 [10, 20]).Images.length : Int) = 1 * 2 * 1
    ∧ (-2 ^ 63 : Int) < 0
    ∧ (ImageSet.mk 1 2 1 [10, 20]).GetFlatImage (-2 ^ 63) = Except.ok [10, 20]
    ∧ ((ImageSet.mk 1 2 2 [10, 20, 30, 40]).Images.length : Int) = 1 * 2 * 2
    ∧ (-2 ^ 62 : Int) < 0
    ∧ (ImageSet.mk 1 2 2 [10, 20, 30, 40]).GetImage (-2 ^ 62)
      = Except.ok [[10, 30], [20, 40]] :=
  ⟨by decide, by decide, by decide, by decide, by decide, by decide⟩

/-! ## The decoders in closed form -/

theorem newReaderFromFile_missing (fs : FileSystem) (loc : String) (magic : Int)
    (hfile : fs loc = none) :
    newReaderFromFile fs loc magic = Except.error
      (GoError.wrap (GoError.openFailed loc) "newReaderFromFile: error opening file") := by
  unfold newReaderFromFile
  rw [hfile]

theorem newReaderFromFile_short (fs : FileSystem) (loc : String) (bs : List Byte)
    (magic : Int) (hfile : fs loc = some bs) (hlen : bs.length < 4) :
    newReaderFromFile fs loc magic
      = Except.error (if bs.length = 0 then GoError.eof else GoError.unexpectedEOF) :=
  newReaderFromFile_of_checkMagic_error fs loc bs [] magic _ hfile
    (checkMagic_of_lt bs magic hlen)

/-- Without the expected magic and a complete header `readLabelSet` returns an error. -/
theorem readLabelSet_of_no_header (fs : FileSystem) (loc : String) (bs : List Byte)
    (hfile : fs loc = some bs)
    (h : ¬ (8 ≤ bs.length ∧ beInt32 bs 0 = LabelMagic)) :
    ∃ err, readLabelSet fs loc = Except.ok (Except.error err) := by
  by_cases h4 : bs.length < 4
  · exact ⟨_, readLabelSet_of_open_error fs loc _
      (newReaderFromFile_short fs loc bs LabelMagic hfile h4)⟩
  · by_cases hm : beInt32 bs 0 = LabelMagic
    · have hl : (bs.drop 4).length < 4 := by
        have : ¬ 8 ≤ bs.length := fun h8 => h ⟨h8, hm⟩
        simp only [List.length_drop]; omega
      exact ⟨_, readLabelSet_of_cfg_error fs loc _ _ _
        (newReaderFromFile_match fs loc bs LabelMagic hfile (by omega) hm)
        (binaryReadLabelCfg_of_lt _ hl)⟩
    · exact ⟨_, readLabelSet_of_open_error fs loc _
        (newReaderFromFile_mismatch fs loc bs LabelMagic hfile (by omega) hm)⟩

/-- Without the expected magic and a complete header `readImageSet` returns an error. -/
theorem readImageSet_of_no_header (fs : FileSystem) (loc : String) (bs : List Byte)
    (hfile : fs loc = some bs)
    (h : ¬ (16 ≤ bs.length ∧ beInt32 bs 0 = ImageMagic)) :
    ∃ err, readImageSet fs loc = Except.ok (Except.error err) := by
  by_cases h4 : bs.length < 4
  · exact ⟨_, readImageSet_of_open_error fs loc _
      (newReaderFromFile_short fs loc bs ImageMagic hfile h4)⟩
  · by_cases hm : beInt32 bs 0 = ImageMagic
    · have hl : (bs.drop 4).length < 12 := by
        have : ¬ 16 ≤ bs.length := fun h8 => h ⟨h8, hm⟩
        simp only [List.length_drop]; omega
      exact ⟨_, readImageSet_of_cfg_error fs loc _ _ _
        (newReaderFromFile_match fs loc bs ImageMagic hfile (by omega) hm)
        (binaryReadImageCfg_of_lt _ hl)⟩
    · exact ⟨_, readImageSet_of_open_error fs loc _
        (newReaderFromFile_mismatch fs loc bs ImageMagic hfile (by omega) hm)⟩

/-- With the expected magic and a complete header: a panic for a negative count, an error
for too few label bytes, else the set of the first `count` bytes behind the header. -/
theorem readLabelSet_of_header (fs : FileSystem) (loc : String) (bs : List Byte)
    (hfile : fs loc = some bs) (h8 : 8 ≤ bs.length) (hm : beInt32 bs 0 = LabelMagic) :
    readLabelSet fs loc
      = if beInt32 bs 4 < 0 then Except.error (Panic.makesliceLenOutOfRange (beInt32 bs 4))
        else if bs.length - 8 < (beInt32 bs 4).toNat then
          Except.ok (Except.error (GoError.wrap
            (if bs.length = 8 then GoError.eof else GoError.unexpectedEOF)
            "readLabelset: error reading label data"))
        else Except.ok (Except.ok
          { Count := beInt32 bs 4, Labels := (bs.drop 8).take (beInt32 bs 4).toNat }) := by
  have h1 := newReaderFromFile_match fs loc bs LabelMagic hfile (by omega) hm
  have h2 := binaryReadLabelCfg_of_le bs 4 (by omega)
  by_cases hneg : beInt32 bs 4 < 0
  · rw [if_pos hneg]
    exact readLabelSet_of_negative fs loc _ _ { Count := beInt32 bs 4 } h1 h2 hneg
  · rw [if_neg hneg]
    by_cases hshort : bs.length - 8 < (beInt32 bs 4).toNat
    · rw [if_pos hshort]
      have hl : (bs.drop (4 + 4)).length < (beInt32 bs 4).toNat := by
        simp only [List.length_drop]; omega
      have e : ((bs.drop (4 + 4)).length = 0) = (bs.length = 8) := by
        simp only [List.length_drop, eq_iff_iff]; omega
      have h4 := readFull_of_lt _ _ hl
      simp only [e] at h4
      exact readLabelSet_of_data_error fs loc _ _ _ { Count := beInt32 bs 4 } _ h1 h2
        (not_lt.mp hneg) h4
    · rw [if_neg hshort]
      have hl : (beInt32 bs 4).toNat ≤ (bs.drop (4 + 4)).length := by
        simp only [List.length_drop]; omega
      exact readLabelSet_of_data fs loc _ _ _ _ { Count := beInt32 bs 4 } h1 h2
        (not_lt.mp hneg) (readFull_of_le _ _ hl)

/-- The length `readImageSet` allocates for the header of `bs`:
`int(bc.Count*bc.Rows*bc.Cols)` in int32 arithmetic. -/
theorem readImageSet_of_header (fs : FileSystem) (loc : String) (bs : List Byte) (w : Int)
    (hfile : fs loc = some bs) (h16 : 16 ≤ bs.length) (hm : beInt32 bs 0 = ImageMagic)
    (hw : w = wrapInt32 (wrapInt32 (beInt32 bs 4 * beInt32 bs 8) * beInt32 bs 12)) :
    readImageSet fs loc
      = if w < 0 then Except.error (Panic.makesliceLenOutOfRange w)
        else if bs.length - 16 < w.toNat then
          Except.ok (Except.error (GoError.wrap
            (if bs.length = 16 then GoError.eof else GoError.unexpectedEOF)
            "readImageSet: error reading image data"))
        else Except.ok (Except.ok
          { Count := beInt32 bs 4, Rows := beInt32 bs 8, Cols := beInt32 bs 12,
            Images := (bs.drop 16).take w.toNat }) := by
  subst hw
  have h1 := newReaderFromFile_match fs loc bs ImageMagic hfile (by omega) hm
  have h2 := binaryReadImageCfg_of_le bs 4 (by omega)
  by_cases hneg : wrapInt32 (wrapInt32 (beInt32 bs 4 * beInt32 bs 8) * beInt32 bs 12) < 0
  · rw [if_pos hneg]
    exact readImageSet_of_negative fs loc _ _
      { Count := beInt32 bs 4, Rows := beInt32 bs 8, Cols := beInt32 bs 12 } h1 h2 hneg
  · rw [if_neg hneg]
    by_cases hshort : bs.length - 16
        < (wrapInt32 (wrapInt32 (beInt32 bs 4 * beInt32 bs 8) * beInt32 bs 12)).toNat
    · rw [if_pos hshort]
      have hl : (bs.drop (4 + 12)).length
          < (wrapInt32 (wrapInt32 (beInt32 bs 4 * beInt32 bs 8) * beInt32 bs 12)).toNat := by
        simp only [List.length_drop]; exact hshort
      have e : ((bs.drop (4 + 12)).length = 0) = (bs.length = 16) := by
        simp only [List.length_drop, eq_iff_iff]; omega
      have h4 := readFull_of_lt _ _ hl
      simp only [e] at h4
      exact readImageSet_of_data_error fs loc _ _ _
        { Count := beInt32 bs 4, Rows := beInt32 bs 8, Cols := beInt32 bs 12 } _ h1 h2
        (not_lt.mp hneg) h4
    · rw [if_neg hshort]
      have hl : (wrapInt32 (wrapInt32 (beInt32 bs 4 * beInt32 bs 8) * beInt32 bs 12)).toNat
          ≤ (bs.drop (4 + 12)).length := by
        simp only [List.length_drop]; exact not_lt.mp hshort
      exact readImageSet_of_data fs loc _ _ _ _
        { Count := beInt32 bs 4, Rows := beInt32 bs 8, Cols := beInt32 bs 12 } h1 h2
        (not_lt.mp hneg) (readFull_of_le _ _ hl)

/-! ## The length of the decoded image buffer -/

/-- On success the length of `Images` is the product of the header fields in int32
arithmetic. -/
theorem readImageSet_length (fs : FileSystem) (loc : String) (s : ImageSet)
    (h : readImageSet fs loc = Except.ok (Except.ok s)) :
    (s.Images.length : Int) = wrapInt32 (wrapInt32 (s.Count * s.Rows) * s.Cols) := by
  cases hfile : fs loc with
  | none =>
    rw [readImageSet_of_open_error fs loc _ (newReaderFromFile_missing fs loc _ hfile)] at h
    cases h
  | some bs =>
    by_cases hh : 16 ≤ bs.length ∧ beInt32 bs 0 = ImageMagic
    · rw [readImageSet_of_header fs loc bs _ hfile hh.1 hh.2 rfl] at h
      split at h
      · cases h
      · split at h
        · cases h
        · rename_i hneg hshort
          have hs := Except.ok.inj (Except.ok.inj h)
          rw [← hs]
          simp only [List.length_take, List.length_drop]
          omega
    · obtain ⟨err, he⟩ := readImageSet_of_no_header fs loc bs hfile hh
      rw [he] at h
      cases h

/-- C11 fails on the code: the image file with the header count 65536, rows 65536, cols 1
and no pixel byte decodes successfully, because the product of the three fields wraps around
to 0 in int32 arithmetic, and the returned set has `len(Images) = 0` while
`Count * Rows * Cols = 2^32`. -/
theorem C11_overflow_breaks_length_invariant :
    readImageSet (fun _ => some (imageFile 65536 65536 1 [])) "images"
      = Except.ok (Except.ok { Count := 65536, Rows := 65536, Cols := 1, Images := [] })
    ∧ ((([] : List Byte).length : Int) ≠ 65536 * 65536 * 1) :=
  ⟨by decide, by decide⟩

/-! ## The magic validator -/

/-- C15: on a stream with fewer than 4 bytes `checkMagic` returns a read error (`io.EOF` or
`io.ErrUnexpectedEOF`, not `errMagicMismatch`); otherwise it leaves the stream behind the
first 4 bytes and returns no error exactly when these bytes, read as a big-endian int32,
equal `truth`, and `errMagicMismatch` when they do not. -/
theorem C15_checkMagic (s : List Byte) (truth : Int) :
    (s.length < 4 →
      ∃ err, (checkMagic s truth).1 = some err
        ∧ (err = GoError.eof ∨ err = GoError.unexpectedEOF) ∧ err ≠ errMagicMismatch)
    ∧ (4 ≤ s.length →
      (checkMagic s truth).2 = s.drop 4
        ∧ ((checkMagic s truth).1 = none ↔ beInt32 s 0 = truth)
        ∧ (beInt32 s 0 ≠ truth → (checkMagic s truth).1 = some errMagicMismatch)) := by
  constructor
  · intro h
    rw [checkMagic_of_lt s truth h]
    by_cases h0 : s.length = 0
    · exact ⟨_, rfl, by rw [if_pos h0]; exact Or.inl rfl, by rw [if_pos h0]; decide⟩
    · exact ⟨_, rfl, by rw [if_neg h0]; exact Or.inr rfl, by rw [if_neg h0]; decide⟩
  · intro h
    rw [checkMagic_of_le s truth h]
    refine ⟨rfl, ?_, fun hne => if_pos hne⟩
    by_cases hm : beInt32 s 0 = truth
    · simp only [hm, ne_eq, not_true_eq_false, if_false]
    · simp only [hm, ne_eq, not_false_eq_true, if_true, iff_false]
      exact fun h2 => Option.noConfusion h2

theorem C15_checkMagic_witness :
    (checkMagic (be32 2049 ++ [1, 2]) 2049).2 = [1, 2]
    ∧ ((checkMagic (be32 2049 ++ [1, 2]) 2049).1 = none
        ↔ beInt32 (be32 2049 ++ [1, 2]) 0 = 2049) :=
  ⟨((C15_checkMagic (be32 2049 ++ [1, 2]) 2049).2 (by decide)).1,
    ((C15_checkMagic (be32 2049 ++ [1, 2]) 2049).2 (by decide)).2.1⟩

/-! ## Headers that crash the decoder -/

/-- C18: on a file with the expected magic and a complete header `readLabelSet` panics (in
`make`, with a negative length) exactly when the count of the header is negative, and
`readImageSet` exactly when count*rows*cols in int32 arithmetic is negative; on every other
file content both return a set or an error. -/
theorem C18_negative_length_panics (fs : FileSystem) (loc : String) (bs : List Byte)
    (hfile : fs loc = some bs) :
    (8 ≤ bs.length → beInt32 bs 0 = LabelMagic →
      ((∃ p, readLabelSet fs loc = Except.error p) ↔ beInt32 bs 4 < 0)
      ∧ (beInt32 bs 4 < 0 →
        readLabelSet fs loc = Except.error (Panic.makesliceLenOutOfRange (beInt32 bs 4))))
    ∧ (16 ≤ bs.length → beInt32 bs 0 = ImageMagic →
      ((∃ p, readImageSet fs loc = Except.error p)
        ↔ wrapInt32 (wrapInt32 (beInt32 bs 4 * beInt32 bs 8) * beInt32 bs 12) < 0)
      ∧ (wrapInt32 (wrapInt32 (beInt32 bs 4 * beInt32 bs 8) * beInt32 bs 12) < 0 →
        readImageSet fs loc = Except.error (Panic.makesliceLenOutOfRange
          (wrapInt32 (wrapInt32 (beInt32 bs 4 * beInt32 bs 8) * beInt32 bs 12)))))
    ∧ (¬ (8 ≤ bs.length ∧ beInt32 bs 0 = LabelMagic) → ∃ r, readLabelSet fs loc = Except.ok r)
    ∧ (¬ (16 ≤ bs.length ∧ beInt32 bs 0 = ImageMagic) →
      ∃ r, readImageSet fs loc = Except.ok r) := by
  refine ⟨fun h8 hm => ?_, fun h16 hm => ?_, fun h => ?_, fun h => ?_⟩
  · have hc := readLabelSet_of_header fs loc bs hfile h8 hm
    refine ⟨⟨fun ⟨p, hp⟩ => ?_, fun hneg => ⟨_, by rw [hc, if_pos hneg]⟩⟩,
      fun hneg => by rw [hc, if_pos hneg]⟩
    by_contra hneg
    rw [hc, if_neg hneg] at hp
    split at hp <;> cases hp
  · have hc := readImageSet_of_header fs loc bs _ hfile h16 hm rfl
    refine ⟨⟨fun ⟨p, hp⟩ => ?_, fun hneg => ⟨_, by rw [hc, if_pos hneg]⟩⟩,
      fun hneg => by rw [hc, if_pos hneg]⟩
    by_contra hneg
    rw [hc, if_neg hneg] at hp
    split at hp <;> cases hp
  · obtain ⟨err, he⟩ := readLabelSet_of_no_header fs loc bs hfile h
    exact ⟨_, he⟩
  · obtain ⟨err, he⟩ := readImageSet_of_no_header fs loc bs hfile h
    exact ⟨_, he⟩

theorem C18_negative_length_panics_witness :
    readLabelSet (fun _ => some (be32 2049 ++ be32 (-1))) "labels"
      = Except.error (Panic.makesliceLenOutOfRange (beInt32 (be32 2049 ++ be32 (-1)) 4)) :=
  ((C18_negative_length_panics (fun _ => some (be32 2049 ++ be32 (-1))) "labels"
    (be32 2049 ++ be32 (-1)) rfl).1 (by decide) (by decide)).2 (by decide)

/-! ## Trailing bytes -/

theorem readLabelSet_content (fs fs2 : FileSystem) (loc loc2 : String) (bs : List Byte)
    (h1 : fs loc = some bs) (h2 : fs2 loc2 = some bs) :
    readLabelSet fs loc = readLabelSet fs2 loc2 := by
  unfold readLabelSet newReaderFromFile
  rw [h1, h2]

theorem readImageSet_content (fs fs2 : FileSystem) (loc loc2 : String) (bs : List Byte)
    (h1 : fs loc = some bs) (h2 : fs2 loc2 = some bs) :
    readImageSet fs loc = readImageSet fs2 loc2 := by
  unfold readImageSet newReaderFromFile
  rw [h1, h2]

/-- Two lists with the same first `m` elements are equal when one is shorter than `m`, and
both have `m` elements when one has. -/
theorem take_agree (a b : List Byte) (m : Nat) (h : a.take m = b.take m) :
    (a.length < m → a = b) ∧ (m ≤ a.length → m ≤ b.length) := by
  have hl : (a.take m).length = (b.take m).length := by rw [h]
  simp only [List.length_take] at hl
  constructor
  · intro hlt
    rw [List.take_of_length_le (by omega), eq_comm, List.take_of_length_le (by omega)] at h
    exact h.symm
  · intro hle
    omega

theorem take_agree_mono (a b : List Byte) (k m : Nat) (hk : k ≤ m)
    (h : a.take m = b.take m) : a.take k = b.take k := by
  have e : ∀ l : List Byte, l.take k = (l.take m).take k := by
    intro l
    rw [List.take_take, Nat.min_eq_left hk]
  rw [e a, e b, h]

theorem beInt32_eq_of_take (a b : List Byte) (m off : Nat) (hoff : off + 4 ≤ m)
    (h : a.take m = b.take m) : beInt32 a off = beInt32 b off := by
  rw [← beInt32_take a m off hoff, ← beInt32_take b m off hoff, h]

theorem drop_take_agree (a b : List Byte) (k n : Nat) (h : a.take (k + n) = b.take (k + n)) :
    (a.drop k).take n = (b.drop k).take n := by
  rw [List.take_drop, List.take_drop, h]

/-- Two label files that agree up to the end of the labels the header announces decode
alike. -/
theorem readLabelSet_agree (fs fs2 : FileSystem) (loc loc2 : String) (a b : List Byte)
    (hA : fs loc = some a) (hB : fs2 loc2 = some b) (h8 : 8 ≤ a.length)
    (ht : a.take (8 + (beInt32 a 4).toNat) = b.take (8 + (beInt32 a 4).toNat)) :
    readLabelSet fs loc = readLabelSet fs2 loc2 := by
  obtain ⟨hshort, hlong⟩ := take_agree a b _ ht
  by_cases hlt : a.length < 8 + (beInt32 a 4).toNat
  · have hab := hshort hlt
    rw [← hab] at hB
    exact readLabelSet_content fs fs2 loc loc2 a hA hB
  · have hla : 8 + (beInt32 a 4).toNat ≤ a.length := not_lt.mp hlt
    have hlb := hlong hla
    have e0 : beInt32 a 0 = beInt32 b 0 := beInt32_eq_of_take a b _ 0 (by omega) ht
    have e4 : beInt32 a 4 = beInt32 b 4 := beInt32_eq_of_take a b _ 4 (by omega) ht
    have ed := drop_take_agree a b 8 _ ht
    by_cases hm : beInt32 a 0 = LabelMagic
    · rw [readLabelSet_of_header fs loc a hA h8 hm,
        readLabelSet_of_header fs2 loc2 b hB (by omega) (e0 ▸ hm), ← e4]
      by_cases hneg : beInt32 a 4 < 0
      · rw [if_pos hneg, if_pos hneg]
      · rw [if_neg hneg, if_neg hneg, if_neg (by omega), if_neg (by omega), ed]
    · rw [readLabelSet_mismatch fs loc a hA (by omega) hm,
        readLabelSet_mismatch fs2 loc2 b hB (by omega) (e0 ▸ hm)]

/-- Two image files that agree up to the end of the pixels `readImageSet` reads decode
alike. -/
theorem readImageSet_agree (fs fs2 : FileSystem) (loc loc2 : String) (a b : List Byte)
    (w : Int) (hA : fs loc = some a) (hB : fs2 loc2 = some b) (h16 : 16 ≤ a.length)
    (hw : w = wrapInt32 (wrapInt32 (beInt32 a 4 * beInt32 a 8) * beInt32 a 12))
    (ht : a.take (16 + w.toNat) = b.take (16 + w.toNat)) :
    readImageSet fs loc = readImageSet fs2 loc2 := by
  obtain ⟨hshort, hlong⟩ := take_agree a b _ ht
  by_cases hlt : a.length < 16 + w.toNat
  · have hab := hshort hlt
    rw [← hab] at hB
    exact readImageSet_content fs fs2 loc loc2 a hA hB
  · have hla : 16 + w.toNat ≤ a.length := not_lt.mp hlt
    have hlb := hlong hla
    have e0 : beInt32 a 0 = beInt32 b 0 := beInt32_eq_of_take a b _ 0 (by omega) ht
    have e4 : beInt32 a 4 = beInt32 b 4 := beInt32_eq_of_take a b _ 4 (by omega) ht
    have e8 : beInt32 a 8 = beInt32 b 8 := beInt32_eq_of_take a b _ 8 (by omega) ht
    have e12 : beInt32 a 12 = beInt32 b 12 := beInt32_eq_of_take a b _ 12 (by omega) ht
    have ed := drop_take_agree a b 16 _ ht
    by_cases hm : beInt32 a 0 = ImageMagic
    · rw [readImageSet_of_header fs loc a w hA h16 hm hw,
        readImageSet_of_header fs2 loc2 b w hB (by omega) (e0 ▸ hm)
          (by rw [hw, e4, e8, e12]), ← e4, ← e8, ← e12]
      by_cases hneg : w < 0
      · rw [if_pos hneg, if_pos hneg]
      · rw [if_neg hneg, if_neg hneg, if_neg (by omega), if_neg (by omega), ed]
    · rw [readImageSet_mismatch fs loc a hA (by omega) hm,
        readImageSet_mismatch fs2 loc2 b hB (by omega) (e0 ▸ hm)]

theorem wrapInt32_le (z : Int) (hz : 0 ≤ z) : wrapInt32 z ≤ z := by
  unfold wrapInt32; omega

theorem readLabelSet_append (fs : FileSystem) (loc : String) (N : Int)
    (L extra : List Byte) (hN : 0 ≤ N ∧ N < 2 ^ 31) (hL : (L.length : Int) = N)
    (hfile : fs loc = some (labelFile N L ++ extra)) :
    readLabelSet fs loc = Except.ok (Except.ok { Count := N, Labels := L }) := by
  have hm := checkMagic_be32 2049 LabelMagic (by decide) (be32 N ++ (L ++ extra))
  rw [if_neg (by decide)] at hm
  have h1 : newReaderFromFile fs loc LabelMagic = Except.ok (be32 N ++ (L ++ extra)) :=
    newReaderFromFile_of_checkMagic_ok fs loc _ _ _
      (by rw [hfile, labelFile]; simp only [List.append_assoc]) hm
  have h2 := binaryReadLabelCfg_be32 N ⟨by omega, hN.2⟩ (L ++ extra)
  have h4 : readFull (L ++ extra) N.toNat = (Except.ok L, extra) :=
    readFull_append L extra N.toNat (by omega)
  exact readLabelSet_of_data fs loc _ _ _ _ { Count := N } h1 h2 hN.1 h4

theorem readImageSet_append (fs : FileSystem) (loc : String) (N R C : Int)
    (P extra : List Byte) (hN : 0 ≤ N ∧ N < 2 ^ 31) (hR : 0 ≤ R ∧ R < 2 ^ 31)
    (hC : 0 ≤ C ∧ C < 2 ^ 31) (hprod : N * R * C ≤ 2 ^ 31 - 1)
    (hP : (P.length : Int) = N * R * C)
    (hfile : fs loc = some (imageFile N R C P ++ extra)) :
    readImageSet fs loc
      = Except.ok (Except.ok { Count := N, Rows := R, Cols := C, Images := P }) := by
  have hm := checkMagic_be32 2051 ImageMagic (by decide)
    (be32 N ++ be32 R ++ be32 C ++ (P ++ extra))
  rw [if_neg (by decide)] at hm
  have h1 : newReaderFromFile fs loc ImageMagic
      = Except.ok (be32 N ++ be32 R ++ be32 C ++ (P ++ extra)) :=
    newReaderFromFile_of_checkMagic_ok fs loc _ _ _
      (by rw [hfile, imageFile]; simp only [List.append_assoc]) hm
  have h2 := binaryReadImageCfg_be32 N R C ⟨by omega, hN.2⟩ ⟨by omega, hR.2⟩
    ⟨by omega, hC.2⟩ (P ++ extra)
  have hpos : 0 ≤ N * R * C := mul_nonneg (mul_nonneg hN.1 hR.1) hC.1
  have hw : wrapInt32 (wrapInt32 (N * R) * C) = N * R * C := by
    rw [wrapInt32_mul]; exact wrapInt32_id _ ⟨by omega, by omega⟩
  have h4 : readFull (P ++ extra) (wrapInt32 (wrapInt32 (N * R) * C)).toNat
      = (Except.ok P, extra) :=
    readFull_append P extra _ (by rw [hw]; omega)
  exact readImageSet_of_data fs loc _ _ _ _ { Count := N, Rows := R, Cols := C } h1 h2
    (by rw [hw]; exact hpos) h4

/-- C16: two label files that agree on their first 4 + 4 + count bytes, and two image files
that agree on their first 4 + 12 + count*rows*cols bytes (the header fields being those of
the first file, the product non-negative), give the same result of `readLabelSet`, resp.
`readImageSet`; and a well-formed file followed by arbitrary bytes decodes to the same set,
without error. -/
theorem C16_trailing_bytes_ignored (fs fs2 : FileSystem) (loc loc2 : String)
    (a b : List Byte) (hA : fs loc = some a) (hB : fs2 loc2 = some b) :
    (8 ≤ a.length →
      a.take (4 + 4 + (beInt32 a 4).toNat) = b.take (4 + 4 + (beInt32 a 4).toNat) →
      readLabelSet fs loc = readLabelSet fs2 loc2)
    ∧ (16 ≤ a.length → 0 ≤ beInt32 a 4 * beInt32 a 8 * beInt32 a 12 →
      a.take (4 + 12 + (beInt32 a 4 * beInt32 a 8 * beInt32 a 12).toNat)
        = b.take (4 + 12 + (beInt32 a 4 * beInt32 a 8 * beInt32 a 12).toNat) →
      readImageSet fs loc = readImageSet fs2 loc2)
    ∧ (∀ (N : Int) (L extra : List Byte), 0 ≤ N ∧ N < 2 ^ 31 → (L.length : Int) = N →
      a = labelFile N L → b = labelFile N L ++ extra →
      readLabelSet fs loc = Except.ok (Except.ok { Count := N, Labels := L })
        ∧ readLabelSet fs2 loc2 = Except.ok (Except.ok { Count := N, Labels := L }))
    ∧ (∀ (N R C : Int) (P extra : List Byte), 0 ≤ N ∧ N < 2 ^ 31 → 0 ≤ R ∧ R < 2 ^ 31 →
      0 ≤ C ∧ C < 2 ^ 31 → N * R * C ≤ 2 ^ 31 - 1 → (P.length : Int) = N * R * C →
      a = imageFile N R C P → b = imageFile N R C P ++ extra →
      readImageSet fs loc
          = Except.ok (Except.ok { Count := N, Rows := R, Cols := C, Images := P })
        ∧ readImageSet fs2 loc2
          = Except.ok (Except.ok { Count := N, Rows := R, Cols := C, Images := P })) := by
  refine ⟨fun h8 ht => readLabelSet_agree fs fs2 loc loc2 a b hA hB h8 ht,
    fun h16 hpos ht => ?_, ?_, ?_⟩
  · have hwle : wrapInt32 (wrapInt32 (beInt32 a 4 * beInt32 a 8) * beInt32 a 12)
        ≤ beInt32 a 4 * beInt32 a 8 * beInt32 a 12 := by
      rw [wrapInt32_mul]; exact wrapInt32_le _ hpos
    refine readImageSet_agree fs fs2 loc loc2 a b _ hA hB h16 rfl
      (take_agree_mono a b _ _ ?_ ht)
    have := Int.toNat_le_toNat hwle
    omega
  · intro N L extra hN hL ha hb
    refine ⟨?_, readLabelSet_append fs2 loc2 N L extra hN hL (hb ▸ hB)⟩
    exact readLabelSet_append fs loc N L [] hN hL (by rw [List.append_nil]; exact ha ▸ hA)
  · intro N R C P extra hN hR hC hprod hP ha hb
    refine ⟨?_, readImageSet_append fs2 loc2 N R C P extra hN hR hC hprod hP (hb ▸ hB)⟩
    exact readImageSet_append fs loc N R C P [] hN hR hC hprod hP
      (by rw [List.append_nil]; exact ha ▸ hA)

theorem C16_trailing_bytes_ignored_witness :
    readLabelSet (fun _ => some (labelFile 3 [5, 0, 7])) "labels"
      = readLabelSet (fun _ => some (labelFile 3 [5, 0, 7] ++ [9, 9])) "labels" :=
  (C16_trailing_bytes_ignored (fun _ => some (labelFile 3 [5, 0, 7]))
    (fun _ => some (labelFile 3 [5, 0, 7] ++ [9, 9])) "labels" "labels"
    (labelFile 3 [5, 0, 7]) (labelFile 3 [5, 0, 7] ++ [9, 9]) rfl rfl).1
    (by decide) (by decide)

/-! ## Fail-fast in the order of `process` -/

theorem stepTrainingImages_fail (fs : FileSystem) (loc : String) (r : Reader) (err : GoError)
    (hl : loc ≠ "") (h : readImageSet fs loc = Except.ok (Except.error err)) :
    (if loc ≠ "" then r.assignTrainingImages fs loc else Except.ok (r, none))
      = Except.ok ({ r with TrainingImages := none }, some err) := by
  rw [if_pos hl]
  unfold Reader.assignTrainingImages
  rw [h]

theorem stepTrainingLabels_fail (fs : FileSystem) (loc : String) (r : Reader) (err : GoError)
    (hl : loc ≠ "") (h : readLabelSet fs loc = Except.ok (Except.error err)) :
    (if loc ≠ "" then r.assignTrainingLabels fs loc else Except.ok (r, none))
      = Except.ok ({ r with TrainingLabels := none }, some err) := by
  rw [if_pos hl]
  unfold Reader.assignTrainingLabels
  rw [h]

theorem stepTestingImages_fail (fs : FileSystem) (loc : String) (r : Reader) (err : GoError)
    (hl : loc ≠ "") (h : readImageSet fs loc = Except.ok (Except.error err)) :
    (if loc ≠ "" then r.assignTestingImages fs loc else Except.ok (r, none))
      = Except.ok ({ r with TestingImages := none }, some err) := by
  rw [if_pos hl]
  unfold Reader.assignTestingImages
  rw [h]

theorem stepTestingLabels_fail (fs : FileSystem) (loc : String) (r : Reader) (err : GoError)
    (hl : loc ≠ "") (h : readLabelSet fs loc = Except.ok (Except.error err)) :
    (if loc ≠ "" then r.assignTestingLabels fs loc else Except.ok (r, none))
      = Except.ok ({ r with TestingLabels := none }, some err) := by
  rw [if_pos hl]
  unfold Reader.assignTestingLabels
  rw [h]

/-- C13: `New` processes the supplied locations in the order training images, training
labels, testing images, testing labels. When the first supplied location that fails to
decode, every supplied location before it decoding successfully, fails with the error `err`,
`New` returns `err` with a reader in which every supplied earlier set is present and is the
decode of its file, the failing set and every later set are absent, and the outcome does not
depend on the file system at the later locations (they are not opened). -/
theorem C13_fail_fast (fs : FileSystem) (locs : Files) (err : GoError) :
    (locs.TrainingImagesLoc ≠ "" →
      readImageSet fs locs.TrainingImagesLoc = Except.ok (Except.error err) →
      New fs locs = Except.ok (Reader.mk none none none none, some err)
        ∧ ∀ fs2 : FileSystem, fs2 locs.TrainingImagesLoc = fs locs.TrainingImagesLoc →
            New fs2 locs = New fs locs)
    ∧ ((locs.TrainingImagesLoc ≠ "" →
        ∃ s, readImageSet fs locs.TrainingImagesLoc = Except.ok (Except.ok s)) →
      locs.TrainingLabelsLoc ≠ "" →
      readLabelSet fs locs.TrainingLabelsLoc = Except.ok (Except.error err) →
      ∃ r, New fs locs = Except.ok (r, some err)
        ∧ (r.TrainingImages.isSome ↔ locs.TrainingImagesLoc ≠ "")
        ∧ (∀ s, r.TrainingImages = some s →
            readImageSet fs locs.TrainingImagesLoc = Except.ok (Except.ok s))
        ∧ r.TrainingLabels = none ∧ r.TestingImages = none ∧ r.TestingLabels = none
        ∧ ∀ fs2 : FileSystem,
            (locs.TrainingImagesLoc ≠ "" →
              fs2 locs.TrainingImagesLoc = fs locs.TrainingImagesLoc) →
            fs2 locs.TrainingLabelsLoc = fs locs.TrainingLabelsLoc →
            New fs2 locs = New fs locs)
    ∧ ((locs.TrainingImagesLoc ≠ "" →
        ∃ s, readImageSet fs locs.TrainingImagesLoc = Except.ok (Except.ok s)) →
      (locs.TrainingLabelsLoc ≠ "" →
        ∃ s, readLabelSet fs locs.TrainingLabelsLoc = Except.ok (Except.ok s)) →
      locs.TestingImagesLoc ≠ "" →
      readImageSet fs locs.TestingImagesLoc = Except.ok (Except.error err) →
      ∃ r, New fs locs = Except.ok (r, some err)
        ∧ (r.TrainingImages.isSome ↔ locs.TrainingImagesLoc ≠ "")
        ∧ (∀ s, r.TrainingImages = some s →
            readImageSet fs locs.TrainingImagesLoc = Except.ok (Except.ok s))
        ∧ (r.TrainingLabels.isSome ↔ locs.TrainingLabelsLoc ≠ "")
        ∧ (∀ s, r.TrainingLabels = some s →
            readLabelSet fs locs.TrainingLabelsLoc = Except.ok (Except.ok s))
        ∧ r.TestingImages = none ∧ r.TestingLabels = none
        ∧ ∀ fs2 : FileSystem,
            (locs.TrainingImagesLoc ≠ "" →
              fs2 locs.TrainingImagesLoc = fs locs.TrainingImagesLoc) →
            (locs.TrainingLabelsLoc ≠ "" →
              fs2 locs.TrainingLabelsLoc = fs locs.TrainingLabelsLoc) →
            fs2 locs.TestingImagesLoc = fs locs.TestingImagesLoc →
            New fs2 locs = New fs locs)
    ∧ ((locs.TrainingImagesLoc ≠ "" →
        ∃ s, readImageSet fs locs.TrainingImagesLoc = Except.ok (Except.ok s)) →
      (locs.TrainingLabelsLoc ≠ "" →
        ∃ s, readLabelSet fs locs.TrainingLabelsLoc = Except.ok (Except.ok s)) →
      (locs.TestingImagesLoc ≠ "" →
        ∃ s, readImageSet fs locs.TestingImagesLoc = Except.ok (Except.ok s)) →
      locs.TestingLabelsLoc ≠ "" →
      readLabelSet fs locs.TestingLabelsLoc = Except.ok (Except.error err) →
      ∃ r, New fs locs = Except.ok (r, some err)
        ∧ (r.TrainingImages.isSome ↔ locs.TrainingImagesLoc ≠ "")
        ∧ (∀ s, r.TrainingImages = some s →
            readImageSet fs locs.TrainingImagesLoc = Except.ok (Except.ok s))
        ∧ (r.TrainingLabels.isSome ↔ locs.TrainingLabelsLoc ≠ "")
        ∧ (∀ s, r.TrainingLabels = some s →
            readLabelSet fs locs.TrainingLabelsLoc = Except.ok (Except.ok s))
        ∧ (r.TestingImages.isSome ↔ locs.TestingImagesLoc ≠ "")
        ∧ (∀ s, r.TestingImages = some s →
            readImageSet fs locs.TestingImagesLoc = Except.ok (Except.ok s))
        ∧ r.TestingLabels = none) := by
  refine ⟨fun hl hf => ?_, fun h1 hl hf => ?_, fun h1 h2 hl hf => ?_,
    fun h1 h2 h3 hl hf => ?_⟩
  · have e1 := stepTrainingImages_fail fs locs.TrainingImagesLoc
      (Reader.mk none none none none) err hl hf
    have key : ∀ fs2 : FileSystem, fs2 locs.TrainingImagesLoc = fs locs.TrainingImagesLoc →
        New fs2 locs = Except.ok (Reader.mk none none none none, some err) := by
      intro fs2 g1
      unfold New Reader.process
      simp only [stepTrainingImages_congr fs fs2 _ (fun _ => g1), e1]
    exact ⟨key fs rfl, fun fs2 g1 => (key fs2 g1).trans (key fs rfl).symm⟩
  · obtain ⟨o1, e1, p1, q1⟩ := stepTrainingImages_ok fs locs.TrainingImagesLoc
      (Reader.mk none none none none) rfl h1
    have e2 := stepTrainingLabels_fail fs locs.TrainingLabelsLoc
      (Reader.mk o1 none none none) err hl hf
    have key : ∀ fs2 : FileSystem,
        (locs.TrainingImagesLoc ≠ "" →
          fs2 locs.TrainingImagesLoc = fs locs.TrainingImagesLoc) →
        fs2 locs.TrainingLabelsLoc = fs locs.TrainingLabelsLoc →
        New fs2 locs = Except.ok (Reader.mk o1 none none none, some err) := by
      intro fs2 g1 g2
      unfold New Reader.process
      simp only [stepTrainingImages_congr fs fs2 _ g1,
        stepTrainingLabels_congr fs fs2 _ (fun _ => g2), e1, e2]
    exact ⟨_, key fs (fun _ => rfl) rfl, p1, q1, rfl, rfl, rfl,
      fun fs2 g1 g2 => (key fs2 g1 g2).trans (key fs (fun _ => rfl) rfl).symm⟩
  · obtain ⟨o1, e1, p1, q1⟩ := stepTrainingImages_ok fs locs.TrainingImagesLoc
      (Reader.mk none none none none) rfl h1
    obtain ⟨o2, e2, p2, q2⟩ := stepTrainingLabels_ok fs locs.TrainingLabelsLoc
      (Reader.mk o1 none none none) rfl h2
    have e3 := stepTestingImages_fail fs locs.TestingImagesLoc
      (Reader.mk o1 none o2 none) err hl hf
    have key : ∀ fs2 : FileSystem,
        (locs.TrainingImagesLoc ≠ "" →
          fs2 locs.TrainingImagesLoc = fs locs.TrainingImagesLoc) →
        (locs.TrainingLabelsLoc ≠ "" →
          fs2 locs.TrainingLabelsLoc = fs locs.TrainingLabelsLoc) →
        fs2 locs.TestingImagesLoc = fs locs.TestingImagesLoc →
        New fs2 locs = Except.ok (Reader.mk o1 none o2 none, some err) := by
      intro fs2 g1 g2 g3
      unfold New Reader.process
      simp only [stepTrainingImages_congr fs fs2 _ g1, stepTrainingLabels_congr fs fs2 _ g2,
        stepTestingImages_congr fs fs2 _ (fun _ => g3), e1, e2, e3]
    exact ⟨_, key fs (fun _ => rfl) (fun _ => rfl) rfl, p1, q1, p2, q2, rfl, rfl,
      fun fs2 g1 g2 g3 =>
        (key fs2 g1 g2 g3).trans (key fs (fun _ => rfl) (fun _ => rfl) rfl).symm⟩
  · obtain ⟨o1, e1, p1, q1⟩ := stepTrainingImages_ok fs locs.TrainingImagesLoc
      (Reader.mk none none none none) rfl h1
    obtain ⟨o2, e2, p2, q2⟩ := stepTrainingLabels_ok fs locs.TrainingLabelsLoc
      (Reader.mk o1 none none none) rfl h2
    obtain ⟨o3, e3, p3, q3⟩ := stepTestingImages_ok fs locs.TestingImagesLoc
      (Reader.mk o1 none o2 none) rfl h3
    have e4 := stepTestingLabels_fail fs locs.TestingLabelsLoc
      (Reader.mk o1 o3 o2 none) err hl hf
    refine ⟨Reader.mk o1 o3 o2 none, ?_, p1, q1, p2, q2, p3, q3, rfl⟩
    unfold New Reader.process
    simp only [e1, e2, e3, e4]

theorem C13_fail_fast_witness :
    New (fun p => if p = "train-images" then some [] else none)
        ⟨"train-images", "train-labels", "", ""⟩
      = Except.ok (Reader.mk none none none none,
          some (GoError.wrap GoError.eof "readImageSet: error reading image file")) :=
  ((C13_fail_fast (fun p => if p = "train-images" then some [] else none)
    ⟨"train-images", "train-labels", "", ""⟩
    (GoError.wrap GoError.eof "readImageSet: error reading image file")).1
    (by decide) (by decide)).1

/-! ## Open file handles -/

theorem dropFile_head (ran : Bool) (loc : String) (h : Handles) :
    dropFile ran loc (loc :: h) = if ran = false then loc :: h else h := by
  cases ran
  · rfl
  · simp [dropFile]

theorem stillOpen_none (fs : FileSystem) (ran : Bool) (loc : String) (hfile : fs loc = none) :
    stillOpen fs ran loc = [] := by
  unfold stillOpen
  rw [hfile]
  rfl

theorem stillOpen_some (fs : FileSystem) (ran : Bool) (loc : String) (bs : List Byte)
    (hfile : fs loc = some bs) (h : Handles) :
    stillOpen fs ran loc ++ h = dropFile ran loc (loc :: h) := by
  unfold stillOpen
  rw [hfile, dropFile_head]
  cases ran <;> rfl

/-- A refused file is dropped by `newReaderFromFile`. -/
theorem newReaderFromFileH_error (fs : FileSystem) (loc : String) (magic : Int) (ran : Bool)
    (h : Handles) (e : GoError) (hn : newReaderFromFile fs loc magic = Except.error e) :
    newReaderFromFileH fs loc magic ran h = (Except.error e, stillOpen fs ran loc ++ h) := by
  unfold newReaderFromFile at hn
  unfold newReaderFromFileH osOpen
  cases hfile : fs loc with
  | none =>
    rw [hfile] at hn
    rw [stillOpen_none fs ran loc hfile]
    exact congrArg (fun x => (x, h)) hn
  | some bs =>
    rw [hfile] at hn
    rw [stillOpen_some fs ran loc bs hfile]
    rcases hc : checkMagic bs magic with ⟨o, r1⟩
    cases o with
    | none =>
      simp only [hc] at hn
      cases hn
    | some err =>
      simp only [hc] at hn ⊢
      cases hn
      rfl

/-- An accepted file is returned by `newReaderFromFile` with its handle open. -/
theorem newReaderFromFileH_ok (fs : FileSystem) (loc : String) (magic : Int) (ran : Bool)
    (h : Handles) (fr : List Byte) (hn : newReaderFromFile fs loc magic = Except.ok fr) :
    newReaderFromFileH fs loc magic ran h = (Except.ok fr, loc :: h)
      ∧ dropFile ran loc (loc :: h) = stillOpen fs ran loc ++ h := by
  unfold newReaderFromFile at hn
  unfold newReaderFromFileH osOpen
  cases hfile : fs loc with
  | none =>
    rw [hfile] at hn
    cases hn
  | some bs =>
    rw [hfile] at hn
    refine ⟨?_, (stillOpen_some fs ran loc bs hfile h).symm⟩
    rcases hc : checkMagic bs magic with ⟨o, r1⟩
    cases o with
    | none =>
      simp only [hc] at hn ⊢
      cases hn
      rfl
    | some err =>
      simp only [hc] at hn
      cases hn

/-- The decoder of labels with the handles returns what `readLabelSet` returns, and on every
exit leaves open the file it opened unless the finalizer has run. -/
theorem readLabelSetH_eq (fs : FileSystem) (loc : String) (ran : Bool) (h : Handles) :
    readLabelSetH fs loc ran h = (readLabelSet fs loc, stillOpen fs ran loc ++ h) := by
  unfold readLabelSetH readLabelSet
  cases hn : newReaderFromFile fs loc LabelMagic with
  | error err => rw [newReaderFromFileH_error fs loc _ ran h err hn]
  | ok fr =>
    obtain ⟨e1, e2⟩ := newReaderFromFileH_ok fs loc _ ran h fr hn
    rw [e1]
    simp only [e2]
    rcases h2 : binaryReadLabelCfg fr with ⟨res, fr1⟩
    cases res with
    | error err => rfl
    | ok bc =>
      simp only []
      cases makeSlice (0 : Byte) bc.Count with
      | error p => rfl
      | ok d0 =>
        rcases h4 : binaryReadBytes fr1 d0 with ⟨res4, rest⟩
        cases res4 <;> simp only [h4]

/-- The decoder of images with the handles returns what `readImageSet` returns, and on every
exit leaves open the file it opened unless the finalizer has run. -/
theorem readImageSetH_eq (fs : FileSystem) (loc : String) (ran : Bool) (h : Handles) :
    readImageSetH fs loc ran h = (readImageSet fs loc, stillOpen fs ran loc ++ h) := by
  unfold readImageSetH readImageSet
  cases hn : newReaderFromFile fs loc ImageMagic with
  | error err => rw [newReaderFromFileH_error fs loc _ ran h err hn]
  | ok fr =>
    obtain ⟨e1, e2⟩ := newReaderFromFileH_ok fs loc _ ran h fr hn
    rw [e1]
    simp only [e2]
    rcases h2 : binaryReadImageCfg fr with ⟨res, fr1⟩
    cases res with
    | error err => rfl
    | ok bc =>
      simp only []
      cases makeSlice (0 : Byte) (wrapInt32 (wrapInt32 (bc.Count * bc.Rows) * bc.Cols)) with
      | error p => rfl
      | ok d0 =>
        rcases h4 : binaryReadBytes fr1 d0 with ⟨res4, rest⟩
        cases res4 <;> simp only [h4]

/-- A step that reads images adds to the handles the file it opened, unless the finalizer
has run. -/
theorem stepImagesH_snd (fs : FileSystem) (loc : String) (ran : Bool)
    (set : Reader → Option ImageSet → Reader) (r : Reader) (h : Handles) :
    (stepImagesH fs loc ran set r h).2 = stepOpen fs ran loc ++ h := by
  unfold stepImagesH stepOpen
  by_cases hl : loc ≠ ""
  · rw [if_pos hl, if_pos hl, readImageSetH_eq]
    cases readImageSet fs loc with
    | error p => rfl
    | ok res => cases res <;> rfl
  · rw [if_neg hl, if_neg hl]
    rfl

/-- A step that reads labels adds to the handles the file it opened, unless the finalizer
has run. -/
theorem stepLabelsH_snd (fs : FileSystem) (loc : String) (ran : Bool)
    (set : Reader → Option LabelSet → Reader) (r : Reader) (h : Handles) :
    (stepLabelsH fs loc ran set r h).2 = stepOpen fs ran loc ++ h := by
  unfold stepLabelsH stepOpen
  by_cases hl : loc ≠ ""
  · rw [if_pos hl, if_pos hl, readLabelSetH_eq]
    cases readLabelSet fs loc with
    | error p => rfl
    | ok res => cases res <;> rfl
  · rw [if_neg hl, if_neg hl]
    rfl

/-- A step that reads images lets the next step run exactly when its location is not
supplied or the file decodes. -/
theorem stepImagesH_pass (fs : FileSystem) (loc : String) (ran : Bool)
    (set : Reader → Option ImageSet → Reader) (r : Reader) (h : Handles) :
    (∃ r1, (stepImagesH fs loc ran set r h).1 = Except.ok (r1, none))
      ↔ (loc = "" ∨ decodes (readImageSet fs loc) = true) := by
  unfold stepImagesH
  by_cases hl : loc ≠ ""
  · rw [if_pos hl, readImageSetH_eq]
    cases readImageSet fs loc with
    | error p =>
      exact ⟨fun ⟨r1, e⟩ => (by cases e), fun hp => hp.elim (fun e => absurd e hl)
        (fun e => by cases e)⟩
    | ok res =>
      cases res with
      | error err =>
        exact ⟨fun ⟨r1, e⟩ => (by cases e), fun hp => hp.elim (fun e => absurd e hl)
          (fun e => by cases e)⟩
      | ok s => exact ⟨fun _ => Or.inr rfl, fun _ => ⟨_, rfl⟩⟩
  · rw [if_neg hl]
    exact ⟨fun _ => Or.inl (not_not.mp hl), fun _ => ⟨r, rfl⟩⟩

/-- A step that reads labels lets the next step run exactly when its location is not
supplied or the file decodes. -/
theorem stepLabelsH_pass (fs : FileSystem) (loc : String) (ran : Bool)
    (set : Reader → Option LabelSet → Reader) (r : Reader) (h : Handles) :
    (∃ r1, (stepLabelsH fs loc ran set r h).1 = Except.ok (r1, none))
      ↔ (loc = "" ∨ decodes (readLabelSet fs loc) = true) := by
  unfold stepLabelsH
  by_cases hl : loc ≠ ""
  · rw [if_pos hl, readLabelSetH_eq]
    cases readLabelSet fs loc with
    | error p =>
      exact ⟨fun ⟨r1, e⟩ => (by cases e), fun hp => hp.elim (fun e => absurd e hl)
        (fun e => by cases e)⟩
    | ok res =>
      cases res with
      | error err =>
        exact ⟨fun ⟨r1, e⟩ => (by cases e), fun hp => hp.elim (fun e => absurd e hl)
          (fun e => by cases e)⟩
      | ok s => exact ⟨fun _ => Or.inr rfl, fun _ => ⟨_, rfl⟩⟩
  · rw [if_neg hl]
    exact ⟨fun _ => Or.inl (not_not.mp hl), fun _ => ⟨r, rfl⟩⟩

/-- The handles after a sequence of steps: those of the first step, and those of the rest
when the first step lets it run. -/
theorem thenH_snd
    (step rest : Reader → Handles → Except Panic (Reader × Option GoError) × Handles)
    (a b : List String) (pass : Prop) [Decidable pass]
    (hs : ∀ r h, (step r h).2 = a ++ h) (hr : ∀ r h, (rest r h).2 = b ++ h)
    (hp : ∀ r h, (∃ r1, (step r h).1 = Except.ok (r1, none)) ↔ pass)
    (r : Reader) (h : Handles) :
    (thenH step rest r h).2 = (if pass then b ++ a else a) ++ h := by
  have e1 := hs r h
  have p1 := hp r h
  unfold thenH
  rcases hstep : step r h with ⟨res, h1⟩
  rw [hstep] at e1 p1
  have e1b : h1 = a ++ h := e1
  cases res with
  | error p =>
    have hn : ¬ pass := fun hpass => by
      obtain ⟨r1, e⟩ := p1.mpr hpass
      cases e
    rw [if_neg hn]
    exact e1b
  | ok v =>
    rcases v with ⟨r1, oerr⟩
    cases oerr with
    | some err =>
      have hn : ¬ pass := fun hpass => by
        obtain ⟨r2, e⟩ := p1.mpr hpass
        cases e
      rw [if_neg hn]
      exact e1b
    | none =>
      rw [if_pos (p1.mp ⟨r1, rfl⟩)]
      show (rest r1 h1).2 = b ++ a ++ h
      rw [hr r1 h1, e1b, List.append_assoc]

/-- The handles open when `New` returns, on every exit: the handles before it and, in front
of them, the file of every step that ran, unless its finalizer has run; a step runs when
every step before it has an empty location or a file that decodes. -/
theorem NewH_snd (fs : FileSystem) (locs : Files) (gc : Nat → Bool) (h : Handles) :
    (NewH fs locs gc h).2
      = (if locs.TrainingImagesLoc = "" ∨ decodes (readImageSet fs locs.TrainingImagesLoc) = true
          then
            (if locs.TrainingLabelsLoc = ""
                ∨ decodes (readLabelSet fs locs.TrainingLabelsLoc) = true then
              (if locs.TestingImagesLoc = ""
                  ∨ decodes (readImageSet fs locs.TestingImagesLoc) = true then
                stepOpen fs (gc 3) locs.TestingLabelsLoc
                  ++ stepOpen fs (gc 2) locs.TestingImagesLoc
              else stepOpen fs (gc 2) locs.TestingImagesLoc)
                ++ stepOpen fs (gc 1) locs.TrainingLabelsLoc
            else stepOpen fs (gc 1) locs.TrainingLabelsLoc)
              ++ stepOpen fs (gc 0) locs.TrainingImagesLoc
        else stepOpen fs (gc 0) locs.TrainingImagesLoc) ++ h := by
  unfold NewH Reader.processH
  refine thenH_snd _ _ _ _ _ (stepImagesH_snd fs _ _ _) (fun r1 h1 => ?_)
    (stepImagesH_pass fs _ _ _) _ h
  refine thenH_snd _ _ _ _ _ (stepLabelsH_snd fs _ _ _) (fun r2 h2 => ?_)
    (stepLabelsH_pass fs _ _ _) r1 h1
  refine thenH_snd _ _ _ _ _ (stepImagesH_snd fs _ _ _) (fun r3 h3 => ?_)
    (stepImagesH_pass fs _ _ _) r2 h2
  have e4 := thenH_snd _ (fun r4 h4 => (Except.ok (r4, none), h4)) _ []
    (locs.TestingLabelsLoc = "" ∨ decodes (readLabelSet fs locs.TestingLabelsLoc) = true)
    (stepLabelsH_snd fs locs.TestingLabelsLoc (gc 3) (fun r o => { r with TestingLabels := o }))
    (fun _ _ => rfl) (stepLabelsH_pass fs _ _ _) r3 h3
  rw [e4]
  simp only [List.nil_append, ite_self]

theorem stepTrainingImagesH_fst (fs : FileSystem) (loc : String) (ran : Bool) (r : Reader)
    (h : Handles) :
    (stepImagesH fs loc ran (fun r o => { r with TrainingImages := o }) r h).1
      = (if loc ≠ "" then r.assignTrainingImages fs loc else Except.ok (r, none)) := by
  unfold stepImagesH Reader.assignTrainingImages
  by_cases hl : loc ≠ ""
  · rw [if_pos hl, if_pos hl, readImageSetH_eq]
    cases readImageSet fs loc with
    | error p => rfl
    | ok res => cases res <;> rfl
  · rw [if_neg hl, if_neg hl]

theorem stepTrainingLabelsH_fst (fs : FileSystem) (loc : String) (ran : Bool) (r : Reader)
    (h : Handles) :
    (stepLabelsH fs loc ran (fun r o => { r with TrainingLabels := o }) r h).1
      = (if loc ≠ "" then r.assignTrainingLabels fs loc else Except.ok (r, none)) := by
  unfold stepLabelsH Reader.assignTrainingLabels
  by_cases hl : loc ≠ ""
  · rw [if_pos hl, if_pos hl, readLabelSetH_eq]
    cases readLabelSet fs loc with
    | error p => rfl
    | ok res => cases res <;> rfl
  · rw [if_neg hl, if_neg hl]

theorem stepTestingImagesH_fst (fs : FileSystem) (loc : String) (ran : Bool) (r : Reader)
    (h : Handles) :
    (stepImagesH fs loc ran (fun r o => { r with TestingImages := o }) r h).1
      = (if loc ≠ "" then r.assignTestingImages fs loc else Except.ok (r, none)) := by
  unfold stepImagesH Reader.assignTestingImages
  by_cases hl : loc ≠ ""
  · rw [if_pos hl, if_pos hl, readImageSetH_eq]
    cases readImageSet fs loc with
    | error p => rfl
    | ok res => cases res <;> rfl
  · rw [if_neg hl, if_neg hl]

theorem stepTestingLabelsH_fst (fs : FileSystem) (loc : String) (ran : Bool) (r : Reader)
    (h : Handles) :
    (stepLabelsH fs loc ran (fun r o => { r with TestingLabels := o }) r h).1
      = (if loc ≠ "" then r.assignTestingLabels fs loc else Except.ok (r, none)) := by
  unfold stepLabelsH Reader.assignTestingLabels
  by_cases hl : loc ≠ ""
  · rw [if_pos hl, if_pos hl, readLabelSetH_eq]
    cases readLabelSet fs loc with
    | error p => rfl
    | ok res => cases res <;> rfl
  · rw [if_neg hl, if_neg hl]

/-- The value of a sequence of steps is the sequence of the values. -/
theorem thenH_fst
    (step rest : Reader → Handles → Except Panic (Reader × Option GoError) × Handles)
    (pstep prest : Reader → Except Panic (Reader × Option GoError))
    (hs : ∀ r h, (step r h).1 = pstep r) (hr : ∀ r h, (rest r h).1 = prest r)
    (r : Reader) (h : Handles) :
    (thenH step rest r h).1
      = (match pstep r with
        | Except.error p => Except.error p
        | Except.ok (r1, some err) => Except.ok (r1, some err)
        | Except.ok (r1, none) => prest r1) := by
  unfold thenH
  rw [← hs r h]
  rcases step r h with ⟨res, h1⟩
  cases res with
  | error p => rfl
  | ok v =>
    rcases v with ⟨r1, oerr⟩
    cases oerr with
    | some err => rfl
    | none => exact hr r1 h1

/-- The decoder with handles returns what `New` returns. -/
theorem NewH_fst (fs : FileSystem) (locs : Files) (gc : Nat → Bool) (h : Handles) :
    (NewH fs locs gc h).1 = New fs locs := by
  unfold NewH New Reader.processH Reader.process
  exact thenH_fst _ _ _ _ (stepTrainingImagesH_fst fs _ _)
    (thenH_fst _ _ _ _ (stepTrainingLabelsH_fst fs _ _)
      (thenH_fst _ _ _ _ (stepTestingImagesH_fst fs _ _)
        (fun r3 h3 => (thenH_fst _ _ _ (fun r4 => Except.ok (r4, none))
          (stepTestingLabelsH_fst fs _ _) (fun _ _ => rfl) r3 h3).trans
            (by
              cases (if locs.TestingLabelsLoc ≠ "" then
                r3.assignTestingLabels fs locs.TestingLabelsLoc
                else Except.ok (r3, none)) with
              | error p => rfl
              | ok v =>
                rcases v with ⟨r4, oerr⟩
                cases oerr <;> rfl)))) _ h

theorem readImageSet_ok_isSome (fs : FileSystem) (loc : String) (s : ImageSet)
    (h : readImageSet fs loc = Except.ok (Except.ok s)) : (fs loc).isSome = true := by
  cases hfile : fs loc with
  | none =>
    rw [readImageSet_of_open_error fs loc _ (newReaderFromFile_missing fs loc _ hfile)] at h
    cases h
  | some bs => rfl

theorem readLabelSet_ok_isSome (fs : FileSystem) (loc : String) (s : LabelSet)
    (h : readLabelSet fs loc = Except.ok (Except.ok s)) : (fs loc).isSome = true := by
  cases hfile : fs loc with
  | none =>
    rw [readLabelSet_of_open_error fs loc _ (newReaderFromFile_missing fs loc _ hfile)] at h
    cases h
  | some bs => rfl

/-- A sequence that returns no error ran its first step without error and then its rest. -/
theorem thenH_success
    (step rest : Reader → Handles → Except Panic (Reader × Option GoError) × Handles)
    (r r2 : Reader) (h : Handles) (hv : (thenH step rest r h).1 = Except.ok (r2, none)) :
    ∃ r1 h1, step r h = (Except.ok (r1, none), h1) ∧ thenH step rest r h = rest r1 h1 := by
  unfold thenH at hv ⊢
  rcases hs : step r h with ⟨res, h1⟩
  rw [hs] at hv
  cases res with
  | error p => cases hv
  | ok v =>
    rcases v with ⟨r1, oerr⟩
    cases oerr with
    | some err => cases hv
    | none => exact ⟨r1, h1, rfl, rfl⟩

theorem decodes_images_isSome (fs : FileSystem) (loc : String)
    (h : decodes (readImageSet fs loc) = true) : (fs loc).isSome = true := by
  cases hr : readImageSet fs loc with
  | error p => rw [hr] at h; cases h
  | ok res =>
    cases res with
    | error err => rw [hr] at h; cases h
    | ok s => exact readImageSet_ok_isSome fs loc s hr

theorem decodes_labels_isSome (fs : FileSystem) (loc : String)
    (h : decodes (readLabelSet fs loc) = true) : (fs loc).isSome = true := by
  cases hr : readLabelSet fs loc with
  | error p => rw [hr] at h; cases h
  | ok res =>
    cases res with
    | error err => rw [hr] at h; cases h
    | ok s => exact readLabelSet_ok_isSome fs loc s hr

/-- A step that lets the next one run, its finalizer not having run, leaves the file of a
supplied location open. -/
theorem stepOpen_of_pass (fs : FileSystem) (loc : String)
    (h : loc = "" ∨ (fs loc).isSome = true) :
    stepOpen fs false loc = [loc].filter (fun l => l ≠ "") := by
  unfold stepOpen stillOpen
  by_cases hl : loc = ""
  · simp [hl]
  · rcases h with h | h
    · exact absurd h hl
    · simp [hl, h]

/-- A `New` that returns no error ran its four steps. -/
theorem NewH_success (fs : FileSystem) (locs : Files) (r : Reader)
    (hv : New fs locs = Except.ok (r, none)) :
    (locs.TrainingImagesLoc = "" ∨ decodes (readImageSet fs locs.TrainingImagesLoc) = true)
    ∧ (locs.TrainingLabelsLoc = "" ∨ decodes (readLabelSet fs locs.TrainingLabelsLoc) = true)
    ∧ (locs.TestingImagesLoc = "" ∨ decodes (readImageSet fs locs.TestingImagesLoc) = true)
    ∧ (locs.TestingLabelsLoc = "" ∨ decodes (readLabelSet fs locs.TestingLabelsLoc) = true) := by
  rw [← NewH_fst fs locs (fun _ => false) []] at hv
  unfold NewH Reader.processH at hv
  obtain ⟨r1, h1, s1, e1⟩ := thenH_success _ _ _ _ _ hv
  rw [e1] at hv
  obtain ⟨r2, h2, s2, e2⟩ := thenH_success _ _ _ _ _ hv
  rw [e2] at hv
  obtain ⟨r3, h3, s3, e3⟩ := thenH_success _ _ _ _ _ hv
  rw [e3] at hv
  obtain ⟨r4, h4, s4, e4⟩ := thenH_success _ _ _ _ _ hv
  exact ⟨(stepImagesH_pass fs _ _ _ _ _).mp ⟨r1, by rw [s1]⟩,
    (stepLabelsH_pass fs _ _ _ _ _).mp ⟨r2, by rw [s2]⟩,
    (stepImagesH_pass fs _ _ _ _ _).mp ⟨r3, by rw [s3]⟩,
    (stepLabelsH_pass fs _ _ _ _ _).mp ⟨r4, by rw [s4]⟩⟩

/-- C12, as stated, fails. In the run in which the garbage collector does not run during
`New`, `New` on the training labels alone, no handle being open before, returns the decoded
set with the handle of the file open, and so it does when the file is refused for its magic.
In the run in which the finalizers of the first two files have run, `New` on three files
returns with the third open. The source calls `Close` nowhere. -/
theorem C12_counterexample :
    NewH (fun _ => some (labelFile 3 [5, 0, 7])) ⟨"", "labels", "", ""⟩ (fun _ => false) []
      = (Except.ok (Reader.mk none none (some ⟨3, [5, 0, 7]⟩) none, none), ["labels"])
    ∧ (NewH (fun _ => some (labelFile 3 [5, 0, 7])) ⟨"", "labels", "", ""⟩
        (fun _ => false) []).2 ≠ []
    ∧ NewH (fun _ => some (labelFile 3 [5, 0, 7])) ⟨"images", "", "", ""⟩ (fun _ => false) []
      = (Except.ok (Reader.mk none none none none,
          some (GoError.wrap errMagicMismatch "readImageSet: error reading image file")),
        ["images"])
    ∧ NewH (fun p => if p = "b" then some (labelFile 1 [5]) else some (imageFile 1 1 1 [7]))
        ⟨"a", "b", "c", ""⟩ (fun k => decide (k < 2)) []
      = (Except.ok (Reader.mk (some ⟨1, 1, 1, [7]⟩) (some ⟨1, 1, 1, [7]⟩) (some ⟨1, [5]⟩) none,
          none), ["c"]) :=
  ⟨by decide, by decide, by decide, by decide⟩

/-- C12, amended: `New` closes no file it opens, and a file it opened is closed before it
returns only if the garbage collector has run the finalizer of the file. With the open
handles as explicit state and, for each step, whether that finalizer has run (`ran`, `gc`):
`readLabelSet` and `readImageSet` return, on every exit path (a decoded set, a magic
mismatch, a short header, short data, a panic), with the handles they found and the file
they opened, unless its finalizer has run; `New` returns, on every exit path, with the
handles it found and the file of every supplied location up to the first that does not
decode, unless the file does not exist or its finalizer has run; and after a `New` without
error during which no finalizer has run the handles are those before it plus one for each
supplied location. -/
theorem C12_handles_left_to_finalizer (fs : FileSystem) (locs : Files) (gc : Nat → Bool)
    (h : Handles) :
    (∀ loc ran, readLabelSetH fs loc ran h = (readLabelSet fs loc, stillOpen fs ran loc ++ h))
    ∧ (∀ loc ran,
      readImageSetH fs loc ran h = (readImageSet fs loc, stillOpen fs ran loc ++ h))
    ∧ (∀ loc, (fs loc).isSome = true → stillOpen fs false loc = [loc] ∧ stillOpen fs true loc = [])
    ∧ (NewH fs locs gc h).1 = New fs locs
    ∧ (¬ (locs.TrainingImagesLoc = ""
          ∨ decodes (readImageSet fs locs.TrainingImagesLoc) = true) →
      (NewH fs locs gc h).2 = stepOpen fs (gc 0) locs.TrainingImagesLoc ++ h)
    ∧ ((locs.TrainingImagesLoc = ""
          ∨ decodes (readImageSet fs locs.TrainingImagesLoc) = true) →
      ¬ (locs.TrainingLabelsLoc = ""
          ∨ decodes (readLabelSet fs locs.TrainingLabelsLoc) = true) →
      (NewH fs locs gc h).2
        = stepOpen fs (gc 1) locs.TrainingLabelsLoc
          ++ stepOpen fs (gc 0) locs.TrainingImagesLoc ++ h)
    ∧ ((locs.TrainingImagesLoc = ""
          ∨ decodes (readImageSet fs locs.TrainingImagesLoc) = true) →
      (locs.TrainingLabelsLoc = ""
          ∨ decodes (readLabelSet fs locs.TrainingLabelsLoc) = true) →
      ¬ (locs.TestingImagesLoc = ""
          ∨ decodes (readImageSet fs locs.TestingImagesLoc) = true) →
      (NewH fs locs gc h).2
        = stepOpen fs (gc 2) locs.TestingImagesLoc
          ++ stepOpen fs (gc 1) locs.TrainingLabelsLoc
          ++ stepOpen fs (gc 0) locs.TrainingImagesLoc ++ h)
    ∧ ((locs.TrainingImagesLoc = ""
          ∨ decodes (readImageSet fs locs.TrainingImagesLoc) = true) →
      (locs.TrainingLabelsLoc = ""
          ∨ decodes (readLabelSet fs locs.TrainingLabelsLoc) = true) →
      (locs.TestingImagesLoc = ""
          ∨ decodes (readImageSet fs locs.TestingImagesLoc) = true) →
      (NewH fs locs gc h).2
        = stepOpen fs (gc 3) locs.TestingLabelsLoc
          ++ stepOpen fs (gc 2) locs.TestingImagesLoc
          ++ stepOpen fs (gc 1) locs.TrainingLabelsLoc
          ++ stepOpen fs (gc 0) locs.TrainingImagesLoc ++ h)
    ∧ ((∀ k, gc k = false) → ∀ r, New fs locs = Except.ok (r, none) →
      (NewH fs locs gc h).2
        = [locs.TestingLabelsLoc, locs.TestingImagesLoc, locs.TrainingLabelsLoc,
            locs.TrainingImagesLoc].filter (fun l => l ≠ "") ++ h) := by
  refine ⟨fun loc ran => readLabelSetH_eq fs loc ran h,
    fun loc ran => readImageSetH_eq fs loc ran h, fun loc hs => ?_, NewH_fst fs locs gc h,
    fun n1 => ?_, fun p1 n2 => ?_, fun p1 p2 n3 => ?_, fun p1 p2 p3 => ?_, fun hgc r hv => ?_⟩
  · unfold stillOpen
    rw [hs]
    exact ⟨rfl, rfl⟩
  · rw [NewH_snd, if_neg n1]
  · rw [NewH_snd, if_pos p1, if_neg n2]
  · rw [NewH_snd, if_pos p1, if_pos p2, if_neg n3, List.append_assoc]
  · rw [NewH_snd, if_pos p1, if_pos p2, if_pos p3, List.append_assoc, List.append_assoc]
  · obtain ⟨p1, p2, p3, p4⟩ := NewH_success fs locs r hv
    rw [NewH_snd, if_pos p1, if_pos p2, if_pos p3, hgc 0, hgc 1, hgc 2, hgc 3,
      stepOpen_of_pass fs _ (p1.imp id (decodes_images_isSome fs _)),
      stepOpen_of_pass fs _ (p2.imp id (decodes_labels_isSome fs _)),
      stepOpen_of_pass fs _ (p3.imp id (decodes_images_isSome fs _)),
      stepOpen_of_pass fs _ (p4.imp id (decodes_labels_isSome fs _))]
    simp only [List.filter_cons, List.filter_nil]
    by_cases c1 : locs.TrainingImagesLoc = "" <;> by_cases c2 : locs.TrainingLabelsLoc = ""
      <;> by_cases c3 : locs.TestingImagesLoc = "" <;> by_cases c4 : locs.TestingLabelsLoc = ""
      <;> simp [c1, c2, c3, c4]

theorem C12_handles_left_to_finalizer_witness :
    (NewH (fun _ => some (labelFile 3 [5, 0, 7])) ⟨"", "labels", "", ""⟩ (fun _ => false)
        ["other"]).2
      = ["", "", "labels", ""].filter (fun l => l ≠ "") ++ ["other"] :=
  (C12_handles_left_to_finalizer (fun _ => some (labelFile 3 [5, 0, 7]))
    ⟨"", "labels", "", ""⟩ (fun _ => false) ["other"]).2.2.2.2.2.2.2.2 (fun _ => rfl)
    (Reader.mk none none (some ⟨3, [5, 0, 7]⟩) none) (by decide)
/-! ## The grayscale conversion -/

/-- C14 fails on the code: the grid with the one row 1, 2 is non-empty and rectangular, and
`ToGrayScale` panics on it with an index out of range instead of returning an image of width
1 and height 2, because the loops run `y` over `len(m)` and `x` over `len(m[0])` and read
`m[x][y]`; so it does on the grid with the two rows 1 and 2. On the empty grid it returns nil,
and on the square grid 10, 30 / 20, 40 the image with the pixel `m[x][y]` at `(x, y)`. -/
theorem C14_ToGrayScale_nonsquare_panics :
    ([[1, 2]] : List (List Byte)).length ≠ 0
    ∧ (∀ row ∈ ([[1, 2]] : List (List Byte)), row.length = 2)
    ∧ ToGrayScale [[1, 2]] = Except.error (Panic.indexOutOfRange 1 1)
    ∧ ToGrayScale [[1], [2]] = Except.error (Panic.indexOutOfRange 1 1)
    ∧ ToGrayScale [] = Except.ok none
    ∧ ToGrayScale [[10, 30], [20, 40]] = Except.ok (some
        { Pix := [10, 20, 30, 40], Stride := 2, MinX := 0, MinY := 0, MaxX := 2, MaxY := 2 }) :=
  ⟨by decide, by decide, by decide, by decide, by decide, by decide⟩

/-! ## `GetImage` on images that are not square -/

/-- A loop whose iteration `k` panics, the iterations before it running through, panics. -/
theorem forRange_fail {σ : Type} (body : σ → Nat → Except Panic σ) (n k : Nat) (init s : σ)
    (p : Panic) (hk : k < n) (hrun : forRange k body init = Except.ok s)
    (hfail : body s k = Except.error p) :
    forRange n body init = Except.error p := by
  induction n with
  | zero => exact absurd hk (Nat.not_lt_zero _)
  | succ n ih =>
    rw [forRange_succ]
    by_cases hkn : k = n
    · subst hkn
      rw [hrun]
      exact hfail
    · rw [ih (by omega)]

theorem rect_bounds (count r c offset len : Int) (hr : 1 ≤ r) (hc : 1 ≤ c)
    (hlen : len = count * r * c) (h : 0 ≤ offset ∧ offset < count) :
    0 ≤ offset * r ∧ offset * r ≤ offset * r * c ∧ 1 ≤ r * c
      ∧ offset * r * c + r * c ≤ len := by
  have h1 : 0 ≤ offset * r := mul_nonneg h.1 (by omega)
  have h2 : offset * r ≤ offset * r * c := le_mul_of_one_le_right h1 hc
  have h3 : 1 ≤ r * c := by nlinarith
  have h5 : (offset + 1) * (r * c) ≤ count * (r * c) :=
    mul_le_mul_of_nonneg_right (by omega) (by omega)
  have h8 : (offset + 1) * (r * c) = offset * r * c + r * c := by ring
  have h9 : count * (r * c) = count * r * c := by ring
  exact ⟨h1, h2, h3, by omega⟩

theorem rect_start_wrap (count r c offset len : Int) (hr : 1 ≤ r) (hc : 1 ≤ c)
    (hlen : len = count * r * c) (hmax : len < 2 ^ 63) (h : 0 ≤ offset ∧ offset < count) :
    wrapInt (wrapInt (offset * r) * c) = offset * r * c := by
  obtain ⟨h1, h2, h3, h4⟩ := rect_bounds count r c offset len hr hc hlen h
  rw [wrapInt_id (offset * r) ⟨by omega, by omega⟩]
  exact wrapInt_id _ ⟨by omega, by omega⟩

/-- The index into `Images` that the loop body forms at `(x, y)`, as long as
`y*r + x ≤ r*c`, does not overflow. -/
theorem rect_pixel_wrap (count r c offset len x y : Int) (hr : 1 ≤ r) (hc : 1 ≤ c)
    (hlen : len = count * r * c) (hmax : len < 2 ^ 63) (h : 0 ≤ offset ∧ offset < count)
    (hx : 0 ≤ x) (hy : 0 ≤ y) (hxy : y * r + x ≤ r * c) :
    wrapInt (offset * r * c + wrapInt (wrapInt (y * r) + x)) = offset * r * c + (y * r + x)
      ∧ 0 ≤ offset * r * c + (y * r + x)
      ∧ offset * r * c + (y * r + x) ≤ len - (r * c - (y * r + x)) := by
  obtain ⟨h1, h2, h3, h4⟩ := rect_bounds count r c offset len hr hc hlen h
  have h5 : 0 ≤ y * r := mul_nonneg hy (by omega)
  rw [wrapInt_id (y * r) ⟨by omega, by omega⟩, wrapInt_id (y * r + x) ⟨by omega, by omega⟩,
    wrapInt_id _ ⟨by omega, by omega⟩]
  exact ⟨rfl, by omega, by omega⟩

theorem assignIndex_out_of_range {α : Type} (s : List α) (i : Int) (v : α)
    (h : (s.length : Int) ≤ i) :
    assignIndex s i v = Except.error (Panic.indexOutOfRange i s.length) := by
  unfold assignIndex
  rw [if_neg (by omega), if_neg (by omega)]

/-- The pixel the loop body reads at `(x, y)` when `y*r + x < r*c`. -/
theorem rect_pixel_index (img : ImageSet) (offset : Int) (r c x y : Nat) (hr : 1 ≤ r)
    (hc : 1 ≤ c)
    (hlen : (img.Images.length : Int) = img.Count * (r : Int) * (c : Int))
    (hmax : (img.Images.length : Int) ≤ maxInt) (h : 0 ≤ offset ∧ offset < img.Count)
    (hxy : (y : Int) * (r : Int) + (x : Int) < (r : Int) * (c : Int)) :
    ∃ v, index img.Images (wrapInt (offset * (r : Int) * (c : Int)
          + wrapInt (wrapInt ((y : Int) * (r : Int)) + (x : Int)))) = Except.ok v := by
  have hmax2 : (img.Images.length : Int) < 2 ^ 63 := lt_of_le_of_lt hmax (by decide)
  obtain ⟨hw, h0, h1⟩ := rect_pixel_wrap img.Count r c offset _ x y (Int.toNat_le.mp hr)
    (Int.toNat_le.mp hc) hlen hmax2 h (Int.natCast_nonneg _) (Int.natCast_nonneg _)
    (le_of_lt hxy)
  rw [hw]
  obtain ⟨v, hv, -⟩ := index_of_lt img.Images _ h0 ((Int.toNat_lt h0).mpr (by omega))
  exact ⟨v, hv⟩

/-- The first `k` iterations of the inner loop run through and keep the shape of the grid,
as long as they stay inside the grid and inside `Images`. -/
theorem inner_loop_grid (img : ImageSet) (offset : Int) (r c y k : Nat)
    (m : List (List Byte)) (hr : 1 ≤ r) (hc : 1 ≤ c)
    (hlen : (img.Images.length : Int) = img.Count * (r : Int) * (c : Int))
    (hmax : (img.Images.length : Int) ≤ maxInt) (h : 0 ≤ offset ∧ offset < img.Count)
    (hgrid : isGrid r c m) (hk : k ≤ r) (hy : y < c)
    (hxy : ∀ x : Nat, x < k → (y : Int) * (r : Int) + (x : Int) < (r : Int) * (c : Int)) :
    ∃ m2, forRange k (img.assignPixel (offset * (r : Int) * (c : Int)) (r : Int) y) m
        = Except.ok m2 ∧ isGrid r c m2 := by
  refine forRange_invariant (fun _ m1 => isGrid r c m1) _ k m hgrid ?_
  intro x m1 hx hinv
  obtain ⟨v, hv⟩ := rect_pixel_index img offset r c x y hr hc hlen hmax h (hxy x hx)
  obtain ⟨m2, hm2, hgrid2, -⟩ := assignPixel_ok img (offset * (r : Int) * (c : Int))
    (r : Int) r c y x m1 v hinv (by omega) hy hv
  exact ⟨m2, hm2, hgrid2⟩

theorem wide_xy (r c x : Int) (hr : 1 ≤ r) (hc : 1 ≤ c) (hx : x < r) :
    0 * r + x < r * c := by
  have h1 : r ≤ r * c := le_mul_of_one_le_right (by omega) hc
  omega

theorem narrow_xy (r c x y : Int) (hx : x < c) (hy : 0 ≤ y ∧ y < c) (hcr : c < r) :
    y * r + x < r * c := by
  have h1 : y * r ≤ (c - 1) * r := mul_le_mul_of_nonneg_right (by omega) (by omega)
  have h2 : (c - 1) * r = r * c - r := by ring
  omega

/-- The double loop of `GetImage`, for an image set whose fields are `r` and `c`. -/
theorem getImage_loops (img : ImageSet) (offset : Int) (r c : Nat) (hr : 1 ≤ r) (hc : 1 ≤ c)
    (hR : img.Rows = (r : Int)) (hC : img.Cols = (c : Int))
    (hlen : (img.Images.length : Int) = img.Count * (r : Int) * (c : Int))
    (hmax : (img.Images.length : Int) ≤ maxInt) (h : 0 ≤ offset ∧ offset < img.Count) :
    img.GetImage offset
      = forRange r
          (fun m1 y => forRange c
            (img.assignPixel (offset * (r : Int) * (c : Int)) (r : Int) y) m1)
          (List.replicate r (List.replicate c (0 : Byte))) := by
  have hr1 : (1 : Int) ≤ (r : Int) := Int.toNat_le.mp hr
  have hc1 : (1 : Int) ≤ (c : Int) := Int.toNat_le.mp hc
  have hstart := rect_start_wrap img.Count r c offset _ hr1 hc1 hlen
    (lt_of_le_of_lt hmax (by decide)) h
  rw [getImage_unfold img offset (not_lt.mpr (le_of_lt h.2)) (hR ▸ hr1)
    (hC ▸ Int.natCast_nonneg c), hR, hC, Int.toNat_ofNat, Int.toNat_ofNat, hstart]

/-- With more columns than rows the first row of pixels already leaves the grid: the outer
index `x = Rows` is out of range. -/
theorem getImage_wide (img : ImageSet) (offset : Int) (r c : Nat) (hr : 1 ≤ r) (hrc : r < c)
    (hR : img.Rows = (r : Int)) (hC : img.Cols = (c : Int))
    (hlen : (img.Images.length : Int) = img.Count * (r : Int) * (c : Int))
    (hmax : (img.Images.length : Int) ≤ maxInt) (h : 0 ≤ offset ∧ offset < img.Count) :
    img.GetImage offset = Except.error (Panic.indexOutOfRange (r : Int) r) := by
  have hc : 1 ≤ c := by omega
  rw [getImage_loops img offset r c hr hc hR hC hlen hmax h]
  refine forRange_fail _ r 0 _ (List.replicate r (List.replicate c (0 : Byte))) _
    (by omega) rfl ?_
  obtain ⟨m2, hrun, hgrid⟩ := inner_loop_grid img offset r c 0 r _ hr hc hlen hmax h
    (isGrid_replicate r c) (le_refl r) (by omega)
    (fun x hx => by
      have := wide_xy (r : Int) (c : Int) (x : Int) (Int.toNat_le.mp hr) (Int.toNat_le.mp hc)
        (Int.ofNat_lt.mpr hx)
      rw [Nat.cast_zero]
      exact this)
  refine forRange_fail _ c r _ m2 _ hrc hrun ?_
  unfold ImageSet.assignPixel
  simp only [index_out_of_range m2 (r : Int) (Or.inr (by rw [hgrid.1])), hgrid.1]

theorem rect_fail_point (count r c offset len : Int) (hr : 1 ≤ r) (hc : 1 ≤ c)
    (hlen : len = count * r * c) (hmax : len < 2 ^ 63) (h : 0 ≤ offset ∧ offset < count) :
    wrapInt (offset * r * c + wrapInt (wrapInt (c * r) + 0)) = offset * r * c + r * c
      ∧ 0 ≤ offset * r * c + r * c
      ∧ (offset + 1 < count → offset * r * c + r * c < len)
      ∧ (offset + 1 = count → offset * r * c + r * c = len) := by
  obtain ⟨hw, h0, -⟩ := rect_pixel_wrap count r c offset len 0 c hr hc hlen hmax h
    (le_refl _) (by omega) (le_of_eq (by ring))
  have e : c * r + 0 = r * c := by ring
  rw [e] at hw h0
  refine ⟨hw, h0, fun hlt => ?_, fun heq => ?_⟩
  · obtain ⟨-, -, h3, h4⟩ := rect_bounds count r c (offset + 1) len hr hc hlen
      ⟨by omega, hlt⟩
    have e2 : (offset + 1) * r * c = offset * r * c + r * c := by ring
    omega
  · rw [hlen, ← heq]
    ring

/-- The state in which the loops of `GetImage` reach the row `y = Cols` on an image with more
rows than columns: a grid of `r` by `c`. -/
theorem getImage_narrow_rows (img : ImageSet) (offset : Int) (r c : Nat) (hc : 1 ≤ c)
    (hcr : c < r)
    (hlen : (img.Images.length : Int) = img.Count * (r : Int) * (c : Int))
    (hmax : (img.Images.length : Int) ≤ maxInt) (h : 0 ≤ offset ∧ offset < img.Count) :
    ∃ m2, forRange c
        (fun m1 y => forRange c
          (img.assignPixel (offset * (r : Int) * (c : Int)) (r : Int) y) m1)
        (List.replicate r (List.replicate c (0 : Byte))) = Except.ok m2
      ∧ isGrid r c m2 := by
  refine forRange_invariant (fun _ m1 => isGrid r c m1) _ c _ (isGrid_replicate r c) ?_
  intro y m1 hy hinv
  exact inner_loop_grid img offset r c y c m1 (by omega) hc hlen hmax h hinv (by omega) hy
    (fun x hx => narrow_xy (r : Int) (c : Int) (x : Int) (y : Int) (Int.ofNat_lt.mpr hx)
      ⟨Int.natCast_nonneg _, Int.ofNat_lt.mpr hy⟩ (Int.ofNat_lt.mpr hcr))

/-- With more rows than columns and an image that is not the last one, the inner index
`y = Cols` is out of range. -/
theorem getImage_narrow (img : ImageSet) (offset : Int) (r c : Nat) (hc : 1 ≤ c)
    (hcr : c < r) (hR : img.Rows = (r : Int)) (hC : img.Cols = (c : Int))
    (hlen : (img.Images.length : Int) = img.Count * (r : Int) * (c : Int))
    (hmax : (img.Images.length : Int) ≤ maxInt) (h : 0 ≤ offset ∧ offset + 1 < img.Count) :
    img.GetImage offset = Except.error (Panic.indexOutOfRange (c : Int) c) := by
  have hr : 1 ≤ r := by omega
  have h2 : 0 ≤ offset ∧ offset < img.Count := ⟨h.1, by omega⟩
  rw [getImage_loops img offset r c hr hc hR hC hlen hmax h2]
  obtain ⟨m2, hrun, hgrid⟩ := getImage_narrow_rows img offset r c hc hcr hlen hmax h2
  refine forRange_fail _ r c _ m2 _ hcr hrun ?_
  refine forRange_fail _ c 0 _ m2 _ (by omega) rfl ?_
  have hm0 : 0 < m2.length := by rw [hgrid.1]; omega
  have hrow : index m2 0 = Except.ok m2[0] := by
    have := index_natCast m2 0 _ (List.getElem?_eq_getElem hm0)
    rwa [Nat.cast_zero] at this
  have hrl : (m2[0]).length = c := hgrid.2 _ (List.getElem_mem hm0)
  obtain ⟨hw, h0, hlt, -⟩ := rect_fail_point img.Count r c offset _ (Int.toNat_le.mp hr)
    (Int.toNat_le.mp hc) hlen (lt_of_le_of_lt hmax (by decide)) h2
  obtain ⟨v, hv, -⟩ := index_of_lt img.Images _ h0 ((Int.toNat_lt h0).mpr (hlt h.2))
  unfold ImageSet.assignPixel
  simp only [Nat.cast_zero, hrow, hw, hv,
    assignIndex_out_of_range (m2[0]) (c : Int) v (by rw [hrl]), hrl]

/-- With more rows than columns and the last image, the index into `Images` is out of range
before the inner index is. -/
theorem getImage_narrow_last (img : ImageSet) (offset : Int) (r c : Nat) (hc : 1 ≤ c)
    (hcr : c < r) (hR : img.Rows = (r : Int)) (hC : img.Cols = (c : Int))
    (hlen : (img.Images.length : Int) = img.Count * (r : Int) * (c : Int))
    (hmax : (img.Images.length : Int) ≤ maxInt) (h : 0 ≤ offset ∧ offset + 1 = img.Count) :
    img.GetImage offset
      = Except.error (Panic.indexOutOfRange (img.Images.length : Int) img.Images.length) := by
  have hr : 1 ≤ r := by omega
  have h2 : 0 ≤ offset ∧ offset < img.Count := ⟨h.1, by omega⟩
  rw [getImage_loops img offset r c hr hc hR hC hlen hmax h2]
  obtain ⟨m2, hrun, hgrid⟩ := getImage_narrow_rows img offset r c hc hcr hlen hmax h2
  refine forRange_fail _ r c _ m2 _ hcr hrun ?_
  refine forRange_fail _ c 0 _ m2 _ (by omega) rfl ?_
  have hm0 : 0 < m2.length := by rw [hgrid.1]; omega
  have hrow : index m2 0 = Except.ok m2[0] := by
    have := index_natCast m2 0 _ (List.getElem?_eq_getElem hm0)
    rwa [Nat.cast_zero] at this
  obtain ⟨hw, h0, -, heq⟩ := rect_fail_point img.Count r c offset _ (Int.toNat_le.mp hr)
    (Int.toNat_le.mp hc) hlen (lt_of_le_of_lt hmax (by decide)) h2
  unfold ImageSet.assignPixel
  simp only [Nat.cast_zero, hrow, hw, heq h.2,
    index_out_of_range img.Images (img.Images.length : Int) (Or.inr (le_refl _))]

/-- C17, as stated, fails in the place of the fault: on the image set with count 1, rows 2,
cols 1 and pixels 10, 20 (more rows than columns) `GetImage(0)` panics on the index 2 into
`Images`, of length 2, and not on the inner index `y` into a row, of length `Cols = 1`. -/
theorem C17_counterexample :
    (ImageSet.mk 1 2 1 [10, 20]).GetImage 0 = Except.error (Panic.indexOutOfRange 2 2)
    ∧ ∀ y : Int,
        (ImageSet.mk 1 2 1 [10, 20]).GetImage 0 ≠ Except.error (Panic.indexOutOfRange y 1) := by
  have e : (ImageSet.mk 1 2 1 [10, 20]).GetImage 0
      = Except.error (Panic.indexOutOfRange 2 2) :=
    getImage_narrow_last (ImageSet.mk 1 2 1 [10, 20]) 0 2 1 (by decide) (by decide) rfl rfl
      (by decide) (by decide) ⟨by decide, by decide⟩
  refine ⟨e, fun y hy => ?_⟩
  rw [e] at hy
  injection hy with hy
  injection hy with _ hy
  exact absurd hy (by decide)

/-- C17, amended: on an image set with `Rows, Cols ≥ 1` and `len(Images) == Count*Rows*Cols`,
for an offset in `[0, Count)`, `GetImage` returns without a panic exactly when
`Rows == Cols`. With `Cols > Rows` it panics on the outer index `x = Rows`; with
`Rows > Cols` it panics on the inner index `y = Cols`, except for the last image
(`offset == Count - 1`), where the index `len(Images)` into `Images` is out of range
first. -/
theorem C17_GetImage_square_only (img : ImageSet) (offset : Int)
    (hR : 1 ≤ img.Rows) (hC : 1 ≤ img.Cols)
    (hlen : (img.Images.length : Int) = img.Count * img.Rows * img.Cols)
    (hmax : (img.Images.length : Int) ≤ maxInt) (h : 0 ≤ offset ∧ offset < img.Count) :
    ((∃ m, img.GetImage offset = Except.ok m) ↔ img.Rows = img.Cols)
    ∧ (img.Rows < img.Cols →
      img.GetImage offset = Except.error (Panic.indexOutOfRange img.Rows img.Rows.toNat))
    ∧ (img.Cols < img.Rows → offset + 1 < img.Count →
      img.GetImage offset = Except.error (Panic.indexOutOfRange img.Cols img.Cols.toNat))
    ∧ (img.Cols < img.Rows → offset + 1 = img.Count →
      img.GetImage offset
        = Except.error (Panic.indexOutOfRange (img.Images.length : Int) img.Images.length)) := by
  obtain ⟨r, hr⟩ : ∃ r : Nat, img.Rows = (r : Int) :=
    ⟨img.Rows.toNat, (Int.toNat_of_nonneg (le_trans (by decide) hR)).symm⟩
  obtain ⟨c, hc⟩ : ∃ c : Nat, img.Cols = (c : Int) :=
    ⟨img.Cols.toNat, (Int.toNat_of_nonneg (le_trans (by decide) hC)).symm⟩
  rw [hr, hc] at hlen
  rw [hr] at hR
  rw [hc] at hC
  have hr1 : 1 ≤ r := Int.toNat_le.mpr hR
  have hc1 : 1 ≤ c := Int.toNat_le.mpr hC
  have hwide : (r : Int) < (c : Int) →
      img.GetImage offset = Except.error (Panic.indexOutOfRange (r : Int) r) :=
    fun hlt => getImage_wide img offset r c hr1 (Int.ofNat_lt.mp hlt) hr hc hlen hmax h
  have hnarrow : (c : Int) < (r : Int) → offset + 1 < img.Count →
      img.GetImage offset = Except.error (Panic.indexOutOfRange (c : Int) c) :=
    fun hlt ho => getImage_narrow img offset r c hc1 (Int.ofNat_lt.mp hlt) hr hc hlen hmax
      ⟨h.1, ho⟩
  have hlast : (c : Int) < (r : Int) → offset + 1 = img.Count →
      img.GetImage offset
        = Except.error (Panic.indexOutOfRange (img.Images.length : Int) img.Images.length) :=
    fun hlt ho => getImage_narrow_last img offset r c hc1 (Int.ofNat_lt.mp hlt) hr hc hlen
      hmax ⟨h.1, ho⟩
  rw [hr, hc, Int.toNat_ofNat, Int.toNat_ofNat]
  refine ⟨⟨fun ⟨m, hm⟩ => ?_, fun heq => ?_⟩, hwide, hnarrow, hlast⟩
  · by_contra hne
    rcases lt_or_gt_of_ne hne with hlt | hgt
    · rw [hwide hlt] at hm
      cases hm
    · by_cases ho : offset + 1 < img.Count
      · rw [hnarrow hgt ho] at hm
        cases hm
      · rw [hlast hgt (by omega)] at hm
        cases hm
  · have hcr : c = r := (Int.ofNat_inj.mp heq).symm
    subst hcr
    obtain ⟨m, hm, -, -⟩ := getImage_square img offset c hr1 hr hc hlen hmax h
    exact ⟨m, hm⟩

theorem C17_GetImage_square_only_witness :
    (ImageSet.mk 2 2 1 [10, 20, 30, 40]).GetImage 0
      = Except.error (Panic.indexOutOfRange 1 ((1 : Int).toNat)) :=
  (C17_GetImage_square_only (ImageSet.mk 2 2 1 [10, 20, 30, 40]) 0 (by decide) (by decide)
    (by decide) (by decide) (by decide)).2.2.1 (by decide) (by decide)

end Mnist
